import Mathlib

/-!
Shallow embedding of the dbt artifact processor
(`integration/common/openlineage/common/provider/dbt.py`) and proofs about it.

Python dicts parsed from JSON/YAML are embedded as `JValue` (association-list
objects preserving insertion order).  Fallible Python operations (key lookup,
attribute access on `None`, `int()` coercion) are embedded in `Except String`.
Wall-clock reads and uuid generation are threaded explicitly: `now` is a
parameter and run ids come from a counter supply.
-/

namespace Dbt

/-- A parsed JSON/YAML value, as the Python code sees it.  Objects are
association lists in insertion order (Python dicts preserve it). -/
inductive JValue where
  | null : JValue
  | bool (b : Bool) : JValue
  | num (n : Int) : JValue
  | str (s : String) : JValue
  | arr (elems : List JValue) : JValue
  | obj (fields : List (String × JValue)) : JValue

/-- Python truthiness of a value (`if x:`). -/
def truthy : JValue → Bool
  | .null => false
  | .bool b => b
  | .num n => n != 0
  | .str s => !s.isEmpty
  | .arr l => !l.isEmpty
  | .obj l => !l.isEmpty

/-- Truthiness of an optional value: Python `None` is falsy. -/
def optTruthy : Option JValue → Bool
  | none => false
  | some v => truthy v

/-- Python `str()` / f-string rendering.  Composite values render as opaque
placeholders: no claim depends on Python repr of dicts or lists. -/
def pyStr : JValue → String
  | .null => "None"
  | .bool true => "True"
  | .bool false => "False"
  | .num n => toString n
  | .str s => s
  | .arr _ => "[...]"
  | .obj _ => "\x7b...\x7d"

/-- Python `s.startswith(pre)`, computed structurally on the character
lists. -/
def pyStartsWith (s pre : String) : Bool :=
  pre.data.isPrefixOf s.data

/-- Drop the first `n` characters of a string, structurally. -/
def pyDrop (s : String) (n : Nat) : String :=
  ⟨s.data.drop n⟩

/-- The decimal value of a digit character, if it is one. -/
def digitVal (c : Char) : Option Nat :=
  if '0' ≤ c ∧ c ≤ '9' then some (c.toNat - '0'.toNat) else none

/-- Accumulate decimal digits; any non-digit fails. -/
def parseNatGo : List Char → Nat → Option Nat
  | [], acc => some acc
  | c :: cs, acc =>
    match digitVal c with
    | some d => parseNatGo cs (acc * 10 + d)
    | none => none

/-- Python `int(s)` on a plain decimal string (optional leading minus). -/
def pyIntOfString (s : String) : Option Int :=
  match s.data with
  | [] => none
  | '-' :: cs =>
    if cs.isEmpty then none else (parseNatGo cs 0).map (fun n => -(n : Int))
  | cs => (parseNatGo cs 0).map (fun n => (n : Int))

/-- Python `int()` coercion: ints are returned as-is, numeric strings are
parsed, booleans coerce to 0/1, anything else raises. -/
def pyInt : JValue → Except String Int
  | .num n => .ok n
  | .bool b => .ok (if b then 1 else 0)
  | .str s =>
    match pyIntOfString s with
    | some n => .ok n
    | none => .error ("ValueError: invalid literal for int: " ++ s)
  | _ => .error "TypeError: int() argument must be a string or a number"

/-- Python `d[k]` subscript: KeyError when the key is missing, TypeError when
the value is not a dict. -/
def jGet (v : JValue) (k : String) : Except String JValue :=
  match v with
  | .obj fields =>
    match fields.lookup k with
    | some w => .ok w
    | none => .error ("KeyError: " ++ k)
  | _ => .error ("TypeError: value is not subscriptable at key " ++ k)

/-- Python `d.values()` on a dict value. -/
def jValues (v : JValue) : Except String (List JValue) :=
  match v with
  | .obj fields => .ok (fields.map Prod.snd)
  | _ => .error "AttributeError: values() on a non-dict"

/-- Require a string (used where Python would call a `str` method such as
`startswith`, raising AttributeError otherwise). -/
def jStr (v : JValue) : Except String String :=
  match v with
  | .str s => .ok s
  | _ => .error "AttributeError: not a string"

/-- Python `d[k] = v` on an association list: replace the first binding in
place, else append (dict insertion-order update semantics). -/
def dictSet {α : Type} : List (String × α) → String → α → List (String × α)
  | [], k, v => [(k, v)]
  | (k', v') :: rest, k, v =>
    if k' == k then (k, v) :: rest else (k', v') :: dictSet rest k v

/-- Modelled from the spec: the repository's `get_from_nullable_chain` helper
(from `openlineage.common.utils`, not under the provided sources) is an
optional-path lookup composed left-to-right over a fixed key sequence,
returning an absent value instead of failing.  A stored JSON `null` behaves
like Python `None`: descending into it yields absence. -/
def get_from_nullable_chain : Option JValue → List String → Option JValue
  | none, _ => none
  | some v, [] => some v
  | some v, k :: ks =>
    match v with
    | .obj fields =>
      match fields.lookup k with
      | some w => get_from_nullable_chain (some w) ks
      | none => none
    | _ => none

/-- Modelled from the spec: the repository's `get_from_multiple_chains` helper
(from `openlineage.common.utils`, not under the provided sources) tries the
alternate key paths in fixed priority order and returns the first present
(non-`None`) result.  A chain ending at a stored JSON `null` counts as absent,
as Python cannot distinguish a stored `None` from a missing key via `.get`. -/
def get_from_multiple_chains (source : JValue) : List (List String) → Option JValue
  | [] => none
  | c :: rest =>
    match get_from_nullable_chain (some source) c with
    | some .null => get_from_multiple_chains source rest
    | some v => some v
    | none => get_from_multiple_chains source rest

/-- Python `x is None` on a stored JSON value. -/
def isNull : JValue → Bool
  | .null => true
  | _ => false

/-- Python `x == "lit"` where `x` is an arbitrary JSON value: true exactly when
`x` is that string (cross-type comparison is `False`, not an error). -/
def jEqStr (v : JValue) (s : String) : Bool :=
  match v with
  | .str t => t == s
  | _ => false

/-- `str.startswith` via attribute access: raises on non-strings. -/
def jStartsWith (v : JValue) (pre : String) : Except String Bool := do
  let s ← jStr v
  pure (pyStartsWith s pre)

/-! ## Facet and event data classes (from `openlineage.client`) -/

/-- `SchemaField`: field name, optional type, optional description; values are
carried as raw JSON values, as the Python constructors store them. -/
structure SchemaField where
  name : JValue
  type : Option JValue
  description : Option JValue

/-- One data-quality check outcome (`Assertion`). -/
structure Assertion where
  assertion : JValue
  success : Bool
  column : Option JValue

/-- The facet objects the processor constructs, one constructor per facet
class used by `dbt.py`. -/
inductive Facet where
  | dataSource (name : String) (uri : String) : Facet
  | schema (fields : List SchemaField) : Facet
  | sql (query : JValue) : Facet
  | outputStatistics (rowCount : Int) (size : Option JValue) : Facet
  | dataQualityAssertions (assertions : List Assertion) : Facet

/-- A facet mapping keyed by facet name, in insertion order. -/
abbrev FacetMap := List (String × Facet)

structure Dataset where
  name_space : String
  name : String
  facets : FacetMap

structure OutputDataset where
  name_space : String
  name : String
  facets : FacetMap
  outputFacets : FacetMap

inductive RunState where
  | START : RunState
  | COMPLETE : RunState
  | FAIL : RunState

structure Run where
  runId : String

structure Job where
  name_space : String
  name : String
  facets : FacetMap

structure RunEvent where
  eventType : RunState
  eventTime : JValue
  run : Run
  job : Job
  producer : String
  inputs : List Dataset
  outputs : List OutputDataset

/-! ## The processor's own data classes -/

/-- `ModelNode`: definition-graph metadata plus optional catalog entry. -/
structure ModelNode where
  metadata_node : JValue
  catalog_node : Option JValue

/-- `DbtRun`: one executed unit before event construction. -/
structure DbtRun where
  started_at : JValue
  completed_at : JValue
  status : JValue
  inputs : List ModelNode
  output : Option ModelNode
  job_name : String
  name_space : String
  run_id : String

/-- `DbtEvents`: the aggregate output of one parse pass. -/
structure DbtEvents where
  starts : List RunEvent
  completes : List RunEvent
  fails : List RunEvent

/-- `DbtRunResult`: the event triple produced from one `DbtRun`. -/
structure DbtRunResult where
  start : RunEvent
  complete : Option RunEvent
  fail : Option RunEvent

/-- The processor state that event construction depends on (producer id,
resolved namespaces, skip-errors flag).  File paths and artifact loading are
outside the embedded core. -/
structure Processor where
  producer : String
  job_namespace : String
  dataset_namespace : String
  skip_errors : Bool

/-- uuid4 generation embedded as a deterministic supply: the `n`-th generated
run id.  Injectivity of the supply stands in for uuid freshness. -/
def freshRunId (n : Nat) : String :=
  "uuid-" ++ toString n

/-! ## Dataset extraction -/

/-- `removeprefix` (static helper on the processor). -/
def dropPref (string : String) (pre : String) : String :=
  if pyStartsWith string pre then pyDrop string pre.length else string

/-- `extract_metadata_fields`: fallback field extraction from the definition
graph's column info (type only, no description). -/
def extract_metadata_fields : List JValue → Except String (List SchemaField)
  | [] => .ok []
  | field :: rest => do
    let name ← jGet field "name"
    let type :=
      match jGet field "data_type" with
      | .ok v => if isNull v then none else some v
      | .error _ => none
    let fields ← extract_metadata_fields rest
    pure ({ name := name, type := type, description := none } :: fields)

/-- `extract_catalog_fields`: field extraction from the catalog's column info
(type and description). -/
def extract_catalog_fields : List JValue → Except String (List SchemaField)
  | [] => .ok []
  | field :: rest => do
    let name ← jGet field "name"
    let type :=
      match jGet field "type" with
      | .ok v => if isNull v then none else some v
      | .error _ => none
    let description :=
      match jGet field "column" with
      | .ok v => if isNull v then none else some v
      | .error _ => none
    let fields ← extract_catalog_fields rest
    pure ({ name := name, type := type, description := description } :: fields)

/-- `extract_dataset_data`: returns `(namespace, fully-qualified name, facet
map)`.  With `has_facets` the map holds a dataSource facet and a schema facet;
the schema entry is overwritten from the catalog when a catalog node exists. -/
def extract_dataset_data (p : Processor) (node : ModelNode) (has_facets : Bool) :
    Except String (String × String × FacetMap) := do
  let facets ←
    if has_facets then do
      let mcols ← jValues (← jGet node.metadata_node "columns")
      let mfields ← extract_metadata_fields mcols
      let base : FacetMap :=
        [("dataSource", Facet.dataSource p.dataset_namespace p.dataset_namespace),
         ("schema", Facet.schema mfields)]
      match node.catalog_node with
      | some cat => do
        let ccols ← jValues (← jGet cat "columns")
        let cfields ← extract_catalog_fields ccols
        pure (dictSet base "schema" (Facet.schema cfields))
      | none => pure base
    else
      pure ([] : FacetMap)
  let db ← jGet node.metadata_node "database"
  let sch ← jGet node.metadata_node "schema"
  let nm ← jGet node.metadata_node "name"
  pure (p.dataset_namespace, s!"{pyStr db}.{pyStr sch}.{pyStr nm}", facets)

/-- `node_to_dataset`. -/
def node_to_dataset (p : Processor) (node : ModelNode) (has_facets : Bool) :
    Except String Dataset := do
  let (ns, nm, facets) ← extract_dataset_data p node has_facets
  pure { name_space := ns, name := nm, facets := facets }

/-- The two alternate key paths for the byte count (bigquery first, then
snowflake). -/
def output_bytes (cat : JValue) : Option JValue :=
  get_from_multiple_chains cat
    [["stats", "num_bytes", "value"], ["stats", "bytes", "value"]]

/-- The two alternate key paths for the row count (bigquery first, then
snowflake). -/
def output_rows (cat : JValue) : Option JValue :=
  get_from_multiple_chains cat
    [["stats", "num_rows", "value"], ["stats", "row_count", "value"]]

/-- `node_to_output_dataset`.  The source binds the extracted triple as
`name, namespace, facets` (swapped relative to the tuple) and then passes them
positionally to `OutputDataset(namespace, name, ...)`; the two swaps cancel,
reproduced here literally.  The outputStatistics facet is attached inside the
`if rows:` branch: the byte count is coerced when truthy but its absence does
not suppress the facet. -/
def node_to_output_dataset (p : Processor) (node : ModelNode) (has_facets : Bool) :
    Except String OutputDataset := do
  let (name, name_space, facets) ← extract_dataset_data p node has_facets
  let output_facets : FacetMap ←
    if has_facets && optTruthy node.catalog_node then do
      match node.catalog_node with
      | some cat => do
        let bytes := output_bytes cat
        let rows := output_rows cat
        let bytes ←
          if optTruthy bytes then do
            let b ← pyInt (bytes.getD JValue.null)
            pure (some (JValue.num b))
          else
            pure bytes
        if optTruthy rows then do
          let r ← pyInt (rows.getD JValue.null)
          pure [("outputStatistics", Facet.outputStatistics r bytes)]
        else
          pure ([] : FacetMap)
      | none => pure ([] : FacetMap)
    else
      pure ([] : FacetMap)
  pure { name_space := name, name := name_space, facets := facets,
         outputFacets := output_facets }

/-! ## Namespace resolution -/

/-- `extract_namespace`: branch on the profile's adapter type. -/
def extract_namespace (profile : JValue) : Except String String := do
  let t ← jGet profile "type"
  if jEqStr t "snowflake" then do
    let account ← jGet profile "account"
    pure s!"snowflake://{pyStr account}"
  else if jEqStr t "bigquery" then
    pure "bigquery"
  else
    .error s!"NotImplementedError: only snowflake and bigquery adapters are supported, passed {pyStr t}"

/-- `extract_job_namespace`: `os.environ.get(var, default)` evaluates the
default eagerly, so namespace extraction runs (and can fail) even when the
override is present. -/
def extract_job_namespace (env_ns : Option String) (profile : JValue) :
    Except String String := do
  let ns ← extract_namespace profile
  pure (env_ns.getD ns)

/-! ## The event builder -/

/-- `Exception`-style access `run.output.metadata_node` when `output` may be
`None`: AttributeError on `None`. -/
def outputNode (o : Option ModelNode) : Except String ModelNode :=
  match o with
  | some node => .ok node
  | none => .error "AttributeError: NoneType object has no attribute metadata_node"

/-- Map `node_to_dataset` over the input nodes (list comprehension). -/
def inputDatasets (p : Processor) (has_facets : Bool) :
    List ModelNode → Except String (List Dataset)
  | [] => .ok []
  | node :: rest => do
    let d ← node_to_dataset p node has_facets
    let ds ← inputDatasets p has_facets rest
    pure (d :: ds)

/-- The status-validation error message; the source lists "skipped" twice
where "error" was evidently intended (its own comment flags this). -/
def statusError (status : JValue) : String :=
  s!"Run status was {pyStr status}, should be in [success, skipped, skipped]"

/-- The output list of a start event: the run's output dataset (facet-free)
when the run has an output node, else empty. -/
def startOutputsOf (p : Processor) : Option ModelNode → Except String (List OutputDataset)
  | some node => do
    let od ← node_to_output_dataset p node false
    pure [od]
  | none => pure ([] : List OutputDataset)

/-- The start event of a non-skipped run: facet-free job, inputs, outputs. -/
def startEvent (p : Processor) (run : DbtRun) (si : List Dataset)
    (so : List OutputDataset) : RunEvent :=
  { eventType := RunState.START,
    eventTime := run.started_at,
    run := { runId := run.run_id },
    job := { name_space := p.job_namespace, name := run.job_name, facets := [] },
    producer := p.producer,
    inputs := si,
    outputs := so }

/-- The complete event of a success run: SQL job facet, full-facet inputs, one
full-facet output. -/
def completeEvent (p : Processor) (run : DbtRun) (q : JValue) (ci : List Dataset)
    (co : OutputDataset) : RunEvent :=
  { eventType := RunState.COMPLETE,
    eventTime := run.completed_at,
    run := { runId := run.run_id },
    job := { name_space := p.job_namespace, name := run.job_name,
             facets := [("sql", Facet.sql q)] },
    producer := p.producer,
    inputs := ci,
    outputs := [co] }

/-- The fail event of an error run: SQL job facet, full-facet inputs, empty
output list. -/
def failEvent (p : Processor) (run : DbtRun) (q : JValue) (fi : List Dataset) :
    RunEvent :=
  { eventType := RunState.FAIL,
    eventTime := run.completed_at,
    run := { runId := run.run_id },
    job := { name_space := p.job_namespace, name := run.job_name,
             facets := [("sql", Facet.sql q)] },
    producer := p.producer,
    inputs := fi,
    outputs := [] }

/-- The terminal-event branch of `_to_openlineage_events`: build a complete
event (success) or a fail event (error); any other status raises.  Both
terminal branches dereference `run.output` unconditionally. -/
def buildTerminal (p : Processor) (run : DbtRun) (start : RunEvent) :
    Except String (Option DbtRunResult) :=
  if jEqStr run.status "success" then do
    let out ← outputNode run.output
    let compiled_sql ← jGet out.metadata_node "compiled_sql"
    let completeInputs ← inputDatasets p true run.inputs
    let completeOutput ← node_to_output_dataset p out true
    pure (some
      { start := start,
        complete := some (completeEvent p run compiled_sql completeInputs completeOutput),
        fail := none })
  else if jEqStr run.status "error" then do
    let out ← outputNode run.output
    let compiled_sql ← jGet out.metadata_node "compiled_sql"
    let failInputs ← inputDatasets p true run.inputs
    pure (some
      { start := start,
        complete := none,
        fail := some (failEvent p run compiled_sql failInputs) })
  else
    .error (statusError run.status)

/-- `_to_openlineage_events`: the per-run state machine.  `skipped` produces
nothing; otherwise a start event is built, then a complete event (success) or
a fail event (error); any other status raises. -/
def underToOpenlineageEvents (p : Processor) (run : DbtRun) :
    Except String (Option DbtRunResult) := do
  if jEqStr run.status "skipped" then
    pure none
  else do
    let startInputs ← inputDatasets p false run.inputs
    let startOutputs ← startOutputsOf p run.output
    buildTerminal p run (startEvent p run startInputs startOutputs)

/-- `raise ValueError(e)`: the underlying error wrapped in a new one. -/
def valueErrorWrap (e : String) : String :=
  "ValueError(" ++ e ++ ")"

/-- `to_openlineage_events`: failure isolation around the per-run builder.
With `skip_errors` the failing run is dropped (returns `None`); otherwise the
error is re-raised wrapped. -/
def to_openlineage_events (p : Processor) (run : DbtRun) :
    Except String (Option DbtRunResult) :=
  match underToOpenlineageEvents p run with
  | .ok r => .ok r
  | .error e => if p.skip_errors then .ok none else .error (valueErrorWrap e)

/-- The aggregation loop at the end of `parse_run`: start always appended,
then complete, `elif` fail. -/
def collect_events (p : Processor) : List DbtRun → Except String DbtEvents
  | [] => .ok { starts := [], completes := [], fails := [] }
  | run :: rest => do
    let results ← to_openlineage_events p run
    let ev ← collect_events p rest
    match results with
    | none => pure ev
    | some res =>
      pure { starts := res.start :: ev.starts,
             completes :=
               match res.complete with
               | some c => c :: ev.completes
               | none => ev.completes,
             fails :=
               match res.complete with
               | some _ => ev.fails
               | none =>
                 match res.fail with
                 | some f => f :: ev.fails
                 | none => ev.fails }

/-! ## Run assembly (`parse_run`, first loop) -/

/-- Resolve one executed unit's input nodes from the parent map: classify by
id-prefix into model (definition-graph node table) or source (source table);
other prefixes are skipped.  Catalog lookups are absent-tolerant. -/
def resolveInputs (manifest : JValue) (catalog : Option JValue) (nodes : JValue) :
    List JValue → Except String (List ModelNode)
  | [] => .ok []
  | node :: rest => do
    let isModel ← jStartsWith node "model."
    if isModel then do
      let nodeName ← jStr node
      let meta ← jGet nodes nodeName
      let rest' ← resolveInputs manifest catalog nodes rest
      pure ({ metadata_node := meta,
              catalog_node := get_from_nullable_chain catalog ["nodes", nodeName] }
            :: rest')
    else do
      let isSource ← jStartsWith node "source."
      if isSource then do
        let nodeName ← jStr node
        let sources ← jGet manifest "sources"
        let meta ← jGet sources nodeName
        let rest' ← resolveInputs manifest catalog nodes rest
        pure ({ metadata_node := meta,
                catalog_node := get_from_nullable_chain catalog ["sources", nodeName] }
              :: rest')
      else
        resolveInputs manifest catalog nodes rest

/-- `get_timings`: locate the timing entry named "execute"; fall back to the
current wall-clock time (the `now` parameter) when there is none.  Only the
IndexError of an empty filter result is caught; a missing `name` key
propagates. -/
def get_timings (now : String) (timings : List JValue) :
    Except String (JValue × JValue) := do
  let named ← timings.filterM (fun t => do
    let nm ← jGet t "name"
    pure (jEqStr nm "execute"))
  match named with
  | [] => pure (JValue.str now, JValue.str now)
  | timing :: _ => do
    let s ← jGet timing "started_at"
    let c ← jGet timing "completed_at"
    pure (s, c)

/-- Python `run['timing']` must iterate as a list. -/
def jList (v : JValue) : Except String (List JValue) :=
  match v with
  | .arr l => .ok l
  | _ => .error "TypeError: value is not iterable"

/-- Assemble one `DbtRun` from one execution record (body of the first loop of
`parse_run`).  `c` is the uuid-supply counter. -/
def assembleRun (p : Processor) (manifest : JValue) (catalog : Option JValue)
    (nodes : JValue) (now : String) (run : JValue) (c : Nat) :
    Except String (DbtRun × Nat) := do
  let timing ← jList (← jGet run "timing")
  let (started_at, completed_at) ← get_timings now timing
  let uid ← jStr (← jGet run "unique_id")
  let parent_map ← jGet manifest "parent_map"
  let parents ← jList (← jGet parent_map uid)
  let inputs ← resolveInputs manifest catalog nodes parents
  let output_node ← jGet nodes uid
  let status ← jGet run "status"
  let db ← jGet output_node "database"
  let sch ← jGet output_node "schema"
  let local_name := dropPref uid "model."
  pure
    ({ started_at := started_at,
       completed_at := completed_at,
       status := status,
       inputs := inputs,
       output := some
         { metadata_node := output_node,
           catalog_node := get_from_nullable_chain catalog ["nodes", uid] },
       job_name := s!"{pyStr db}.{pyStr sch}.{local_name}",
       name_space := p.dataset_namespace,
       run_id := freshRunId c },
     c + 1)

/-- The first loop of `parse_run`: assemble a `DbtRun` per execution record. -/
def parse_run_assemble (p : Processor) (manifest : JValue) (catalog : Option JValue)
    (nodes : JValue) (now : String) : List JValue → Nat →
    Except String (List DbtRun × Nat)
  | [], c => .ok ([], c)
  | run :: rest, c => do
    let (r, c') ← assembleRun p manifest catalog nodes now run c
    let (rs, c'') ← parse_run_assemble p manifest catalog nodes now rest c'
    pure (r :: rs, c'')

/-- `parse_run`: assemble runs from the results document, then aggregate their
events. -/
def parse_run (p : Processor) (manifest : JValue) (run_results : JValue)
    (catalog : Option JValue) (nodes : JValue) (now : String) (c : Nat) :
    Except String (DbtEvents × Nat) := do
  let results ← jList (← jGet run_results "results")
  let (runs, c') ← parse_run_assemble p manifest catalog nodes now results c
  let ev ← collect_events p runs
  pure (ev, c')

/-! ## Test aggregation (`parse_test`) -/

/-- Python `d.items()` on a dict value. -/
def jObj (v : JValue) : Except String (List (String × JValue)) :=
  match v with
  | .obj fields => .ok fields
  | _ => .error "AttributeError: items() on a non-dict"

/-- The validated-parent selection loop of `parse_test`: walks all parents,
reassigning on every id with a model or source id-prefix, so the LAST matching
parent wins (the loop has no break). -/
def test_model_node_loop (acc : Option String) :
    List JValue → Except String (Option String)
  | [] => .ok acc
  | node :: rest => do
    let isModel ← jStartsWith node "model."
    if isModel then do
      let s ← jStr node
      test_model_node_loop (some s) rest
    else do
      let isSource ← jStartsWith node "source."
      if isSource then do
        let s ← jStr node
        test_model_node_loop (some s) rest
      else
        test_model_node_loop acc rest

/-- The validated parent of one test record, from its parent list. -/
def test_model_node (parents : List JValue) : Except String (Option String) :=
  test_model_node_loop none parents

/-- The grouped assertion list of one validated dataset key: the defaultdict
`assertions[k]`, i.e. the appends made under key `k` in order. -/
def assertionsFor (l : List (Option String × Assertion)) (k : Option String) :
    List Assertion :=
  (l.filter (fun x => x.1 == k)).map Prod.snd

/-- The first loop of `parse_test`: per test execution record, find the
validated parent and append an assertion under it; raise on an orphan test
(the append happens first, but the raise aborts the whole parse). -/
def collect_assertions (nodes : JValue) (manifest : JValue) :
    List JValue → Except String (List (Option String × Assertion))
  | [] => .ok []
  | run :: rest => do
    let uid ← jStr (← jGet run "unique_id")
    let test_node ← jGet nodes uid
    let parent_map ← jGet manifest "parent_map"
    let parents ← jList (← jGet parent_map uid)
    let model_node ← test_model_node parents
    let tm ← jGet test_node "test_metadata"
    let aname ← jGet tm "name"
    let status ← jGet run "status"
    let a : Assertion :=
      { assertion := aname,
        success := jEqStr status "pass",
        column := get_from_nullable_chain (some tm) ["kwargs", "column_name"] }
    match model_node with
    | none => .error ("ValueError: Model node connected to test " ++ uid ++ " not found")
    | some k => do
      let rest' ← collect_assertions nodes manifest rest
      pure ((some k, a) :: rest')

/-- The second loop of `parse_test`: for every definition-graph node whose id
has a model/source prefix and that has grouped assertions, emit a start event
(facet-free input) and a complete event (dataQualityAssertions facet on the
input), sharing one freshly generated run id. -/
def emit_tests (p : Processor) (A : List (Option String × Assertion))
    (started_at completed_at : String) :
    List (String × JValue) → Nat →
    Except String (List RunEvent × List RunEvent × Nat)
  | [], c => .ok ([], [], c)
  | (name, node) :: rest, c =>
    if !(pyStartsWith name "model." || pyStartsWith name "source.") then
      emit_tests p A started_at completed_at rest c
    else if (assertionsFor A (some name)).length == 0 then
      emit_tests p A started_at completed_at rest c
    else do
      let assertion_facet := Facet.dataQualityAssertions (assertionsFor A (some name))
      let (ns, dsname, _) ←
        extract_dataset_data p { metadata_node := node, catalog_node := none } false
      let db ← jGet node "database"
      let sch ← jGet node "schema"
      let uidS ← jStr (← jGet node "unique_id")
      let local_name := dropPref uidS "test."
      let job_name := s!"{pyStr db}.{pyStr sch}.{local_name}"
      let run_id := freshRunId c
      let (starts, completes, c') ← emit_tests p A started_at completed_at rest (c + 1)
      pure
        ({ eventType := RunState.START,
           eventTime := JValue.str started_at,
           run := { runId := run_id },
           job := { name_space := p.job_namespace, name := job_name, facets := [] },
           producer := p.producer,
           inputs := [{ name_space := ns, name := dsname, facets := [] }],
           outputs := [] } :: starts,
         { eventType := RunState.COMPLETE,
           eventTime := JValue.str completed_at,
           run := { runId := run_id },
           job := { name_space := p.job_namespace, name := job_name, facets := [] },
           producer := p.producer,
           inputs := [{ name_space := ns, name := dsname,
                        facets := [("dataQualityAssertions", assertion_facet)] }],
           outputs := [] } :: completes,
         c')

/-- `parse_test`: group assertions by validated dataset, then emit one
start/complete pair per dataset group; no fail events.  `catalog` is accepted
but unused, as in the source. -/
def parse_test (p : Processor) (manifest : JValue) (run_results : JValue)
    (_catalog : Option JValue) (nodes : JValue)
    (started_at completed_at : String) (c : Nat) :
    Except String (DbtEvents × Nat) := do
  let results ← jList (← jGet run_results "results")
  let A ← collect_assertions nodes manifest results
  let manifestNodes ← jObj (← jGet manifest "nodes")
  let (starts, completes, c') ← emit_tests p A started_at completed_at manifestNodes c
  pure ({ starts := starts, completes := completes, fails := [] }, c')

/-! ## Proof infrastructure -/

/-- Inversion for a successful `Except` bind. -/
theorem exceptBind_ok {α β : Type} {x : Except String α} {f : α → Except String β}
    {b : β} (h : x >>= f = .ok b) : ∃ a, x = .ok a ∧ f a = .ok b := by
  cases x with
  | ok a => exact ⟨a, rfl, h⟩
  | error e => exact absurd h (by simp [Bind.bind, Except.bind])

theorem ok_bind {α β : Type} (a : α) (f : α → Except String β) :
    (Except.ok a >>= f) = f a := rfl

theorem error_bind {α β : Type} (e : String) (f : α → Except String β) :
    ((Except.error e : Except String α) >>= f) = .error e := rfl

theorem pure_eq_ok {α : Type} (a : α) : (pure a : Except String α) = .ok a := rfl

/-- Membership inversion for `inputDatasets`. -/
theorem inputDatasets_mem {p : Processor} {hf : Bool} {l : List ModelNode}
    {ds : List Dataset} (h : inputDatasets p hf l = .ok ds) :
    ∀ d ∈ ds, ∃ node ∈ l, node_to_dataset p node hf = .ok d := by
  induction l generalizing ds with
  | nil =>
    cases h
    intro d hd
    cases hd
  | cons node rest ih =>
    rw [inputDatasets] at h
    cases hd0 : node_to_dataset p node hf with
    | error e => simp only [hd0, error_bind, ok_bind, pure_eq_ok] at h; exact Except.noConfusion h
    | ok d0 =>
      simp only [hd0, ok_bind] at h
      cases hds0 : inputDatasets p hf rest with
      | error e => simp only [hds0, error_bind, ok_bind, pure_eq_ok] at h; exact Except.noConfusion h
      | ok ds0 =>
        simp only [hds0, ok_bind, pure_eq_ok] at h
        cases h
        intro d hd
        cases hd with
        | head => exact ⟨node, List.mem_cons_self _ _, hd0⟩
        | tail _ hd =>
          obtain ⟨n, hn, hnd⟩ := ih hds0 d hd
          exact ⟨n, List.mem_cons_of_mem _ hn, hnd⟩

/-- A facet-free extraction (`has_facets = false`) yields an empty facet map. -/
theorem extract_dataset_data_bare {p : Processor} {node : ModelNode}
    {t : String × String × FacetMap}
    (h : extract_dataset_data p node false = .ok t) : t.2.2 = [] := by
  rw [extract_dataset_data] at h
  simp only [Bool.false_eq_true, if_false, ok_bind] at h
  cases hdb : jGet node.metadata_node "database" with
  | error e => simp only [hdb, error_bind, ok_bind, pure_eq_ok] at h; exact Except.noConfusion h
  | ok db =>
    simp only [hdb, ok_bind] at h
    cases hsch : jGet node.metadata_node "schema" with
    | error e => simp only [hsch, error_bind, ok_bind, pure_eq_ok] at h; exact Except.noConfusion h
    | ok sch =>
      simp only [hsch, ok_bind] at h
      cases hnm : jGet node.metadata_node "name" with
      | error e => simp only [hnm, error_bind, ok_bind, pure_eq_ok] at h; exact Except.noConfusion h
      | ok nm =>
        simp only [hnm, ok_bind, pure_eq_ok] at h
        cases h
        rfl

/-- A full extraction (`has_facets = true`) yields exactly a dataSource facet
and a schema facet, in that order. -/
theorem extract_dataset_data_full {p : Processor} {node : ModelNode}
    {t : String × String × FacetMap}
    (h : extract_dataset_data p node true = .ok t) :
    ∃ flds, t.2.2 =
      [("dataSource", Facet.dataSource p.dataset_namespace p.dataset_namespace),
       ("schema", Facet.schema flds)] := by
  rw [extract_dataset_data] at h
  simp only [if_true] at h
  cases hcols : jGet node.metadata_node "columns" with
  | error e => simp only [hcols, error_bind, ok_bind, pure_eq_ok] at h; exact Except.noConfusion h
  | ok colsv =>
    simp only [hcols, ok_bind] at h
    cases hmcols : jValues colsv with
    | error e => simp only [hmcols, error_bind, ok_bind, pure_eq_ok] at h; exact Except.noConfusion h
    | ok mcols =>
      simp only [hmcols, ok_bind] at h
      cases hmf : extract_metadata_fields mcols with
      | error e => simp only [hmf, error_bind, ok_bind, pure_eq_ok] at h; exact Except.noConfusion h
      | ok mfields =>
        simp only [hmf, ok_bind] at h
        cases hcat : node.catalog_node with
        | none =>
          simp only [hcat, ok_bind, pure_eq_ok] at h
          cases hdb : jGet node.metadata_node "database" with
          | error e => simp only [hdb, error_bind, ok_bind, pure_eq_ok] at h; exact Except.noConfusion h
          | ok db =>
            simp only [hdb, ok_bind] at h
            cases hsch : jGet node.metadata_node "schema" with
            | error e => simp only [hsch, error_bind, ok_bind, pure_eq_ok] at h; exact Except.noConfusion h
            | ok sch =>
              simp only [hsch, ok_bind] at h
              cases hnm : jGet node.metadata_node "name" with
              | error e => simp only [hnm, error_bind, ok_bind, pure_eq_ok] at h; exact Except.noConfusion h
              | ok nm =>
                simp only [hnm, ok_bind, pure_eq_ok] at h
                cases h
                exact ⟨mfields, rfl⟩
        | some cat =>
          simp only [hcat, ok_bind] at h
          cases hcv : jGet cat "columns" with
          | error e => simp only [hcv, error_bind, ok_bind, pure_eq_ok] at h; exact Except.noConfusion h
          | ok ccolsv =>
            simp only [hcv, ok_bind] at h
            cases hcc : jValues ccolsv with
            | error e => simp only [hcc, error_bind, ok_bind, pure_eq_ok] at h; exact Except.noConfusion h
            | ok ccols =>
              simp only [hcc, ok_bind] at h
              cases hcf : extract_catalog_fields ccols with
              | error e => simp only [hcf, error_bind, ok_bind, pure_eq_ok] at h; exact Except.noConfusion h
              | ok cfields =>
                simp only [hcf, ok_bind, pure_eq_ok] at h
                cases hdb : jGet node.metadata_node "database" with
                | error e => simp only [hdb, error_bind, ok_bind, pure_eq_ok] at h; exact Except.noConfusion h
                | ok db =>
                  simp only [hdb, ok_bind] at h
                  cases hsch : jGet node.metadata_node "schema" with
                  | error e => simp only [hsch, error_bind, ok_bind, pure_eq_ok] at h; exact Except.noConfusion h
                  | ok sch =>
                    simp only [hsch, ok_bind] at h
                    cases hnm : jGet node.metadata_node "name" with
                    | error e => simp only [hnm, error_bind, ok_bind, pure_eq_ok] at h; exact Except.noConfusion h
                    | ok nm =>
                      simp only [hnm, ok_bind, pure_eq_ok] at h
                      cases h
                      exact ⟨cfields, rfl⟩

/-- `outputNode` succeeds exactly on a present output. -/
theorem outputNode_ok {o : Option ModelNode} {out : ModelNode}
    (h : outputNode o = .ok out) : o = some out := by
  cases o with
  | none => exact Except.noConfusion h
  | some node => cases h; rfl

/-- Shape of a successful `startOutputsOf`. -/
theorem startOutputsOf_shape {p : Processor} {o : Option ModelNode}
    {so : List OutputDataset} (h : startOutputsOf p o = .ok so) :
    (o = none ∧ so = []) ∨
    (∃ node od, o = some node ∧ node_to_output_dataset p node false = .ok od ∧
      so = [od]) := by
  cases o with
  | none =>
    cases h
    exact Or.inl ⟨rfl, rfl⟩
  | some node =>
    rw [startOutputsOf] at h
    cases hod : node_to_output_dataset p node false with
    | error e => simp only [hod, error_bind, ok_bind, pure_eq_ok] at h; exact Except.noConfusion h
    | ok od =>
      simp only [hod, ok_bind, pure_eq_ok] at h
      cases h
      exact Or.inr ⟨node, od, rfl, hod, rfl⟩

/-- Inversion of a successful terminal-event construction: the run result
carries the given start event, and is either the success shape (a complete
event, no fail event) or the error shape (a fail event, no complete event). -/
theorem buildTerminal_ok_some {p : Processor} {run : DbtRun} {start : RunEvent}
    {res : DbtRunResult} (h : buildTerminal p run start = .ok (some res)) :
    res.start = start ∧
    ((jEqStr run.status "success" = true ∧
      ∃ out q ci co, run.output = some out ∧
        jGet out.metadata_node "compiled_sql" = .ok q ∧
        inputDatasets p true run.inputs = .ok ci ∧
        node_to_output_dataset p out true = .ok co ∧
        res.complete = some (completeEvent p run q ci co) ∧ res.fail = none) ∨
     (jEqStr run.status "success" = false ∧ jEqStr run.status "error" = true ∧
      ∃ out q fi, run.output = some out ∧
        jGet out.metadata_node "compiled_sql" = .ok q ∧
        inputDatasets p true run.inputs = .ok fi ∧
        res.complete = none ∧ res.fail = some (failEvent p run q fi))) := by
  rw [buildTerminal] at h
  cases hsucc : jEqStr run.status "success" with
  | true =>
    rw [if_pos (by rw [hsucc])] at h
    cases hout : outputNode run.output with
    | error e => simp only [hout, error_bind] at h; exact Except.noConfusion h
    | ok out =>
      simp only [hout, ok_bind] at h
      cases hq : jGet out.metadata_node "compiled_sql" with
      | error e => simp only [hq, error_bind] at h; exact Except.noConfusion h
      | ok q =>
        simp only [hq, ok_bind] at h
        cases hci : inputDatasets p true run.inputs with
        | error e => simp only [hci, error_bind] at h; exact Except.noConfusion h
        | ok ci =>
          simp only [hci, ok_bind] at h
          cases hco : node_to_output_dataset p out true with
          | error e => simp only [hco, error_bind] at h; exact Except.noConfusion h
          | ok co =>
            simp only [hco, ok_bind, pure_eq_ok] at h
            cases h
            exact ⟨rfl, Or.inl ⟨rfl, out, q, ci, co, outputNode_ok hout, hq, rfl, hco,
              rfl, rfl⟩⟩
  | false =>
    rw [if_neg (by rw [hsucc]; exact Bool.false_ne_true)] at h
    cases herr : jEqStr run.status "error" with
    | true =>
      rw [if_pos (by rw [herr])] at h
      cases hout : outputNode run.output with
      | error e => simp only [hout, error_bind] at h; exact Except.noConfusion h
      | ok out =>
        simp only [hout, ok_bind] at h
        cases hq : jGet out.metadata_node "compiled_sql" with
        | error e => simp only [hq, error_bind] at h; exact Except.noConfusion h
        | ok q =>
          simp only [hq, ok_bind] at h
          cases hfi : inputDatasets p true run.inputs with
          | error e => simp only [hfi, error_bind] at h; exact Except.noConfusion h
          | ok fi =>
            simp only [hfi, ok_bind, pure_eq_ok] at h
            cases h
            exact ⟨rfl, Or.inr ⟨rfl, rfl, out, q, fi, outputNode_ok hout, hq, rfl,
              rfl, rfl⟩⟩
    | false =>
      rw [if_neg (by rw [herr]; exact Bool.false_ne_true)] at h
      exact Except.noConfusion h

/-- Inversion of a successful per-run translation that produced a result. -/
theorem builder_ok_some {p : Processor} {run : DbtRun} {res : DbtRunResult}
    (h : underToOpenlineageEvents p run = .ok (some res)) :
    jEqStr run.status "skipped" = false ∧
    ∃ si so, inputDatasets p false run.inputs = .ok si ∧
      startOutputsOf p run.output = .ok so ∧
      buildTerminal p run (startEvent p run si so) = .ok (some res) := by
  rw [underToOpenlineageEvents] at h
  cases hskip : jEqStr run.status "skipped" with
  | true =>
    rw [if_pos (by rw [hskip])] at h
    cases h
  | false =>
    rw [if_neg (by rw [hskip]; exact Bool.false_ne_true)] at h
    cases hsi : inputDatasets p false run.inputs with
    | error e => simp only [hsi, error_bind] at h; exact Except.noConfusion h
    | ok si =>
      simp only [hsi, ok_bind] at h
      cases hso : startOutputsOf p run.output with
      | error e => simp only [hso, error_bind] at h; exact Except.noConfusion h
      | ok so =>
        simp only [hso, ok_bind] at h
        exact ⟨rfl, si, so, rfl, rfl, h⟩

/-- A facet-free dataset conversion yields an empty facet map. -/
theorem node_to_dataset_bare {p : Processor} {node : ModelNode} {d : Dataset}
    (h : node_to_dataset p node false = .ok d) : d.facets = [] := by
  rw [node_to_dataset] at h
  cases ht : extract_dataset_data p node false with
  | error e => simp only [ht, error_bind, ok_bind, pure_eq_ok] at h; exact Except.noConfusion h
  | ok t =>
    obtain ⟨ns, nm, fc⟩ := t
    simp only [ht, ok_bind, pure_eq_ok] at h
    cases h
    exact extract_dataset_data_bare ht

/-- A full-facet dataset conversion carries exactly a dataSource facet and a
schema facet. -/
theorem node_to_dataset_full {p : Processor} {node : ModelNode} {d : Dataset}
    (h : node_to_dataset p node true = .ok d) :
    ∃ flds, d.facets =
      [("dataSource", Facet.dataSource p.dataset_namespace p.dataset_namespace),
       ("schema", Facet.schema flds)] := by
  rw [node_to_dataset] at h
  cases ht : extract_dataset_data p node true with
  | error e => simp only [ht, error_bind, ok_bind, pure_eq_ok] at h; exact Except.noConfusion h
  | ok t =>
    obtain ⟨ns, nm, fc⟩ := t
    simp only [ht, ok_bind, pure_eq_ok] at h
    cases h
    exact extract_dataset_data_full ht

/-- A facet-free output-dataset conversion has empty facet and output-facet
maps. -/
theorem node_to_output_dataset_bare {p : Processor} {node : ModelNode}
    {od : OutputDataset} (h : node_to_output_dataset p node false = .ok od) :
    od.facets = [] ∧ od.outputFacets = [] := by
  rw [node_to_output_dataset] at h
  cases ht : extract_dataset_data p node false with
  | error e => simp only [ht, error_bind, ok_bind, pure_eq_ok] at h; exact Except.noConfusion h
  | ok t =>
    obtain ⟨ns, nm, fc⟩ := t
    simp only [ht, ok_bind, Bool.false_and, Bool.false_eq_true, if_false,
      pure_eq_ok] at h
    cases h
    exact ⟨extract_dataset_data_bare ht, rfl⟩

/-! ## C4: facet-richness invariant of the event builder -/

/-- C4: for every run result the event builder produces, the start event
carries no facets anywhere (job, inputs, outputs), while the complete and the
fail event carry the SQL job facet and full dataSource/schema facets on every
input dataset. -/
theorem C4_facet_richness (p : Processor) (run : DbtRun) (res : DbtRunResult)
    (h : underToOpenlineageEvents p run = .ok (some res)) :
    (res.start.job.facets = [] ∧
     (∀ d ∈ res.start.inputs, d.facets = []) ∧
     (∀ o ∈ res.start.outputs, o.facets = [] ∧ o.outputFacets = [])) ∧
    (∀ ce, res.complete = some ce →
      (∃ q, ce.job.facets = [("sql", Facet.sql q)]) ∧
      (∀ d ∈ ce.inputs, ∃ flds, d.facets =
        [("dataSource", Facet.dataSource p.dataset_namespace p.dataset_namespace),
         ("schema", Facet.schema flds)])) ∧
    (∀ fe, res.fail = some fe →
      (∃ q, fe.job.facets = [("sql", Facet.sql q)]) ∧
      (∀ d ∈ fe.inputs, ∃ flds, d.facets =
        [("dataSource", Facet.dataSource p.dataset_namespace p.dataset_namespace),
         ("schema", Facet.schema flds)])) := by
  obtain ⟨hskip, si, so, hsi, hso, hterm⟩ := builder_ok_some h
  obtain ⟨hstart, hcase⟩ := buildTerminal_ok_some hterm
  refine ⟨?_, ?_, ?_⟩
  · rw [hstart]
    refine ⟨rfl, ?_, ?_⟩
    · intro d hd
      obtain ⟨node, _, hnd⟩ := inputDatasets_mem hsi d hd
      exact node_to_dataset_bare hnd
    · intro o ho
      rcases startOutputsOf_shape hso with ⟨_, hnil⟩ | ⟨node, od, _, hod, hcons⟩
      · rw [hnil] at ho
        cases ho
      · rw [hcons] at ho
        cases ho with
        | head => exact node_to_output_dataset_bare hod
        | tail _ htl => cases htl
  · intro ce hce
    rcases hcase with ⟨_, out, q, ci, co, _, _, hci, _, hcomp, _⟩ |
      ⟨_, _, out, q, fi, _, _, _, hnone, _⟩
    · rw [hcomp] at hce
      cases hce
      refine ⟨⟨q, rfl⟩, ?_⟩
      intro d hd
      obtain ⟨node, _, hnd⟩ := inputDatasets_mem hci d hd
      exact node_to_dataset_full hnd
    · rw [hnone] at hce
      cases hce
  · intro fe hfe
    rcases hcase with ⟨_, out, q, ci, co, _, _, _, _, _, hnone⟩ |
      ⟨_, _, out, q, fi, _, _, hfi, _, hfail⟩
    · rw [hnone] at hfe
      cases hfe
    · rw [hfail] at hfe
      cases hfe
      refine ⟨⟨q, rfl⟩, ?_⟩
      intro d hd
      obtain ⟨node, _, hnd⟩ := inputDatasets_mem hfi d hd
      exact node_to_dataset_full hnd

/-! ## C5 (amended) and C6: success and error run shapes -/

/-- C5 (amended): a success run whose translation succeeds necessarily had an
output node, and yields exactly one start and one complete event sharing the
run's id, both with a singleton (hence non-empty) output dataset list.  (The
unamended claim fails because a success run without an output node makes
translation raise instead of producing events; see the counterexample.) -/
theorem C5_success_events (p : Processor) (run : DbtRun) (r : Option DbtRunResult)
    (h : underToOpenlineageEvents p run = .ok r)
    (hst : run.status = JValue.str "success") :
    ∃ res ce out, r = some res ∧ res.complete = some ce ∧ res.fail = none ∧
      res.start.run.runId = run.run_id ∧ ce.run.runId = run.run_id ∧
      run.output = some out ∧
      res.start.outputs.length = 1 ∧ ce.outputs.length = 1 := by
  rw [underToOpenlineageEvents] at h
  rw [if_neg (show ¬(jEqStr run.status "skipped" = true) by rw [hst]; decide)] at h
  cases hsi : inputDatasets p false run.inputs with
  | error e => rw [hsi, error_bind] at h; exact Except.noConfusion h
  | ok si =>
    simp only [hsi, ok_bind] at h
    cases hso : startOutputsOf p run.output with
    | error e => rw [hso, error_bind] at h; exact Except.noConfusion h
    | ok so =>
      simp only [hso, ok_bind] at h
      rw [buildTerminal] at h
      rw [if_pos (show jEqStr run.status "success" = true by rw [hst]; decide)] at h
      cases hout : outputNode run.output with
      | error e => rw [hout, error_bind] at h; exact Except.noConfusion h
      | ok out =>
        simp only [hout, ok_bind] at h
        cases hq : jGet out.metadata_node "compiled_sql" with
        | error e => rw [hq, error_bind] at h; exact Except.noConfusion h
        | ok q =>
          simp only [hq, ok_bind] at h
          cases hci : inputDatasets p true run.inputs with
          | error e => rw [hci, error_bind] at h; exact Except.noConfusion h
          | ok ci =>
            simp only [hci, ok_bind] at h
            cases hco : node_to_output_dataset p out true with
            | error e => rw [hco, error_bind] at h; exact Except.noConfusion h
            | ok co =>
              simp only [hco, ok_bind, pure_eq_ok] at h
              cases h
              have houtSome := outputNode_ok hout
              rcases startOutputsOf_shape hso with ⟨hnone, _⟩ | ⟨node, od, _, _, hcons⟩
              · rw [houtSome] at hnone
                cases hnone
              · exact ⟨_, completeEvent p run q ci co, out, rfl, rfl, rfl, rfl, rfl,
                  houtSome, by simp [startEvent, hcons], rfl⟩

/-- C6: an error run whose translation succeeds yields exactly one start and
one fail event (no complete event) sharing the run's id; the fail event's
output list is empty while it carries the SQL job facet and full
dataSource/schema facets on every input dataset, like a complete event. -/
theorem C6_error_events (p : Processor) (run : DbtRun) (r : Option DbtRunResult)
    (h : underToOpenlineageEvents p run = .ok r)
    (hst : run.status = JValue.str "error") :
    ∃ res fe q, r = some res ∧ res.complete = none ∧ res.fail = some fe ∧
      res.start.run.runId = run.run_id ∧ fe.run.runId = run.run_id ∧
      fe.outputs = [] ∧ fe.job.facets = [("sql", Facet.sql q)] ∧
      (∀ d ∈ fe.inputs, ∃ flds, d.facets =
        [("dataSource", Facet.dataSource p.dataset_namespace p.dataset_namespace),
         ("schema", Facet.schema flds)]) := by
  rw [underToOpenlineageEvents] at h
  rw [if_neg (show ¬(jEqStr run.status "skipped" = true) by rw [hst]; decide)] at h
  cases hsi : inputDatasets p false run.inputs with
  | error e => rw [hsi, error_bind] at h; exact Except.noConfusion h
  | ok si =>
    simp only [hsi, ok_bind] at h
    cases hso : startOutputsOf p run.output with
    | error e => rw [hso, error_bind] at h; exact Except.noConfusion h
    | ok so =>
      simp only [hso, ok_bind] at h
      rw [buildTerminal] at h
      rw [if_neg (show ¬(jEqStr run.status "success" = true) by rw [hst]; decide)] at h
      rw [if_pos (show jEqStr run.status "error" = true by rw [hst]; decide)] at h
      cases hout : outputNode run.output with
      | error e => rw [hout, error_bind] at h; exact Except.noConfusion h
      | ok out =>
        simp only [hout, ok_bind] at h
        cases hq : jGet out.metadata_node "compiled_sql" with
        | error e => rw [hq, error_bind] at h; exact Except.noConfusion h
        | ok q =>
          simp only [hq, ok_bind] at h
          cases hfi : inputDatasets p true run.inputs with
          | error e => rw [hfi, error_bind] at h; exact Except.noConfusion h
          | ok fi =>
            simp only [hfi, ok_bind, pure_eq_ok] at h
            cases h
            refine ⟨_, failEvent p run q fi, q, rfl, rfl, rfl, rfl, rfl, rfl, rfl, ?_⟩
            intro d hd
            obtain ⟨node, _, hnd⟩ := inputDatasets_mem hfi d hd
            exact node_to_dataset_full hnd

/-- Every successfully assembled run record has a constructed output node and
the counter advanced by one. -/
theorem assembleRun_output {p : Processor} {manifest : JValue} {catalog : Option JValue}
    {nodes : JValue} {now : String} {run : JValue} {c : Nat} {r : DbtRun} {c₂ : Nat}
    (h : assembleRun p manifest catalog nodes now run c = .ok (r, c₂)) :
    (∃ mn, r.output = some mn) ∧ r.run_id = freshRunId c ∧ c₂ = c + 1 := by
  rw [assembleRun] at h
  cases h1 : jGet run "timing" with
  | error e => rw [h1, error_bind] at h; exact Except.noConfusion h
  | ok tv =>
    simp only [h1, ok_bind] at h
    cases h2 : jList tv with
    | error e => rw [h2, error_bind] at h; exact Except.noConfusion h
    | ok timing =>
      simp only [h2, ok_bind] at h
      cases h3 : get_timings now timing with
      | error e => rw [h3, error_bind] at h; exact Except.noConfusion h
      | ok pr =>
        obtain ⟨sa, ca⟩ := pr
        simp only [h3, ok_bind] at h
        cases h4 : jGet run "unique_id" with
        | error e => rw [h4, error_bind] at h; exact Except.noConfusion h
        | ok uidv =>
          simp only [h4, ok_bind] at h
          cases h5 : jStr uidv with
          | error e => rw [h5, error_bind] at h; exact Except.noConfusion h
          | ok uid =>
            simp only [h5, ok_bind] at h
            cases h6 : jGet manifest "parent_map" with
            | error e => rw [h6, error_bind] at h; exact Except.noConfusion h
            | ok pm =>
              simp only [h6, ok_bind] at h
              cases h7 : jGet pm uid with
              | error e => rw [h7, error_bind] at h; exact Except.noConfusion h
              | ok parv =>
                simp only [h7, ok_bind] at h
                cases h8 : jList parv with
                | error e => rw [h8, error_bind] at h; exact Except.noConfusion h
                | ok parents =>
                  simp only [h8, ok_bind] at h
                  cases h9 : resolveInputs manifest catalog nodes parents with
                  | error e => rw [h9, error_bind] at h; exact Except.noConfusion h
                  | ok inputs =>
                    simp only [h9, ok_bind] at h
                    cases h10 : jGet nodes uid with
                    | error e => rw [h10, error_bind] at h; exact Except.noConfusion h
                    | ok output_node =>
                      simp only [h10, ok_bind] at h
                      cases h11 : jGet run "status" with
                      | error e => rw [h11, error_bind] at h; exact Except.noConfusion h
                      | ok status =>
                        simp only [h11, ok_bind] at h
                        cases h12 : jGet output_node "database" with
                        | error e => rw [h12, error_bind] at h; exact Except.noConfusion h
                        | ok db =>
                          simp only [h12, ok_bind] at h
                          cases h13 : jGet output_node "schema" with
                          | error e => rw [h13, error_bind] at h; exact Except.noConfusion h
                          | ok sch =>
                            simp only [h13, ok_bind, pure_eq_ok] at h
                            cases h
                            exact ⟨⟨_, rfl⟩, rfl, rfl⟩

/-- Run assembly constructs an output node for every assembled run. -/
theorem parse_run_assemble_output {p : Processor} {manifest : JValue}
    {catalog : Option JValue} {nodes : JValue} {now : String} :
    ∀ {results : List JValue} {c : Nat} {runs : List DbtRun} {c' : Nat},
      parse_run_assemble p manifest catalog nodes now results c = .ok (runs, c') →
      ∀ r ∈ runs, ∃ mn, r.output = some mn := by
  intro results
  induction results with
  | nil =>
    intro c runs c' h
    cases h
    intro r hr
    cases hr
  | cons rec rest ih =>
    intro c runs c' h
    rw [parse_run_assemble] at h
    cases h1 : assembleRun p manifest catalog nodes now rec c with
    | error e => rw [h1, error_bind] at h; exact Except.noConfusion h
    | ok rc =>
      obtain ⟨r0, c0⟩ := rc
      simp only [h1, ok_bind] at h
      cases h2 : parse_run_assemble p manifest catalog nodes now rest c0 with
      | error e => rw [h2, error_bind] at h; exact Except.noConfusion h
      | ok rsc =>
        obtain ⟨rs, c1⟩ := rsc
        simp only [h2, ok_bind, pure_eq_ok] at h
        cases h
        intro r hr
        cases hr with
        | head => exact (assembleRun_output h1).1
        | tail _ htl => exact ih h2 r htl

/-! ## C10: assembled runs always carry an output node -/

/-- C10: although `DbtRun.output` is optional, run assembly constructs an
output node unconditionally for every execution record, so every assembled run
has a non-`None` output and the start event of every non-skipped translated
run contains exactly one output dataset. -/
theorem C10_output_always_present (p : Processor) (manifest : JValue)
    (catalog : Option JValue) (nodes : JValue) (now : String)
    (results : List JValue) (c : Nat) (runs : List DbtRun) (c' : Nat)
    (h : parse_run_assemble p manifest catalog nodes now results c = .ok (runs, c')) :
    ∀ r ∈ runs, r.output ≠ none ∧
      ∀ res, underToOpenlineageEvents p r = .ok (some res) →
        res.start.outputs.length = 1 := by
  intro r hr
  obtain ⟨mn, hmn⟩ := parse_run_assemble_output h r hr
  refine ⟨by rw [hmn]; exact Option.noConfusion, ?_⟩
  intro res hres
  obtain ⟨_, si, so, hsi, hso, hterm⟩ := builder_ok_some hres
  obtain ⟨hstart, _⟩ := buildTerminal_ok_some hterm
  rcases startOutputsOf_shape hso with ⟨hnone, _⟩ | ⟨node, od, _, _, hcons⟩
  · rw [hmn] at hnone
    cases hnone
  · rw [hstart, hcons]
    rfl

/-! ## C9: unrecognized status handling -/

/-- C9: a run whose status is outside success/error/skipped makes the builder
raise the unrecognized-status error (assuming start-event construction itself
succeeded); with `skip_errors` off the error is re-raised wrapped and aborts
the aggregation, with it on the run is silently dropped and the remaining runs
are still translated. -/
theorem C9_unrecognized_status (p : Processor) (run : DbtRun)
    (si : List Dataset) (so : List OutputDataset)
    (hskip : jEqStr run.status "skipped" = false)
    (hsucc : jEqStr run.status "success" = false)
    (herr : jEqStr run.status "error" = false)
    (hsi : inputDatasets p false run.inputs = .ok si)
    (hso : startOutputsOf p run.output = .ok so) :
    underToOpenlineageEvents p run = .error (statusError run.status) ∧
    (p.skip_errors = false →
      to_openlineage_events p run = .error (valueErrorWrap (statusError run.status)) ∧
      ∀ rest, collect_events p (run :: rest) =
        .error (valueErrorWrap (statusError run.status))) ∧
    (p.skip_errors = true →
      to_openlineage_events p run = .ok none ∧
      ∀ rest, collect_events p (run :: rest) = collect_events p rest) := by
  have h1 : underToOpenlineageEvents p run = .error (statusError run.status) := by
    rw [underToOpenlineageEvents]
    rw [if_neg (show ¬(jEqStr run.status "skipped" = true) by rw [hskip]; decide)]
    simp only [hsi, ok_bind, hso]
    rw [buildTerminal]
    rw [if_neg (show ¬(jEqStr run.status "success" = true) by rw [hsucc]; decide)]
    rw [if_neg (show ¬(jEqStr run.status "error" = true) by rw [herr]; decide)]
  refine ⟨h1, ?_, ?_⟩
  · intro hflag
    have h2 : to_openlineage_events p run =
        .error (valueErrorWrap (statusError run.status)) := by
      rw [to_openlineage_events, h1, hflag]
      rfl
    refine ⟨h2, fun rest => ?_⟩
    rw [collect_events, h2, error_bind]
  · intro hflag
    have h2 : to_openlineage_events p run = .ok none := by
      rw [to_openlineage_events, h1, hflag]
      rfl
    refine ⟨h2, fun rest => ?_⟩
    rw [collect_events]
    cases hrest : collect_events p rest with
    | error e => simp only [h2, ok_bind, hrest, error_bind, pure_eq_ok]
    | ok ev => simp only [h2, ok_bind, hrest, pure_eq_ok]

/-! ## Concrete sample artifacts for witnesses and counterexamples -/

/-- A well-formed definition-graph node for a model. -/
def sampleMeta : JValue :=
  .obj [("database", .str "db"), ("schema", .str "public"),
        ("name", .str "customers"),
        ("columns", .obj [("id", .obj [("name", .str "id"), ("data_type", .str "int")])]),
        ("compiled_sql", .str "select 1"),
        ("unique_id", .str "model.proj.customers")]

def sampleNode : ModelNode :=
  { metadata_node := sampleMeta, catalog_node := none }

def sampleProc : Processor :=
  { producer := "prod", job_namespace := "jns", dataset_namespace := "dns",
    skip_errors := false }

def sampleRun (status : JValue) : DbtRun :=
  { started_at := .str "t0", completed_at := .str "t1", status := status,
    inputs := [sampleNode], output := some sampleNode,
    job_name := "db.public.customers", name_space := "dns", run_id := "uuid-0" }

/-- The facet-free dataset extracted from `sampleNode`. -/
def sampleBareDataset : Dataset :=
  { name_space := "dns", name := "db.public.customers", facets := [] }

/-- The facet-free output dataset extracted from `sampleNode`. -/
def sampleBareOutput : OutputDataset :=
  { name_space := "dns", name := "db.public.customers", facets := [],
    outputFacets := [] }

/-- The full facet map extracted from `sampleNode` (no catalog). -/
def sampleFullFacets : FacetMap :=
  [("dataSource", Facet.dataSource "dns" "dns"),
   ("schema", Facet.schema
     [{ name := .str "id", type := some (.str "int"), description := none }])]

def sampleFullDataset : Dataset :=
  { name_space := "dns", name := "db.public.customers", facets := sampleFullFacets }

def sampleFullOutput : OutputDataset :=
  { name_space := "dns", name := "db.public.customers", facets := sampleFullFacets,
    outputFacets := [] }

/-- The run result the builder produces for `sampleRun (.str "success")`. -/
def sampleSuccessRes : DbtRunResult :=
  { start := startEvent sampleProc (sampleRun (.str "success"))
      [sampleBareDataset] [sampleBareOutput],
    complete := some (completeEvent sampleProc (sampleRun (.str "success"))
      (.str "select 1") [sampleFullDataset] sampleFullOutput),
    fail := none }

/-- The run result the builder produces for `sampleRun (.str "error")`. -/
def sampleErrorRes : DbtRunResult :=
  { start := startEvent sampleProc (sampleRun (.str "error"))
      [sampleBareDataset] [sampleBareOutput],
    complete := none,
    fail := some (failEvent sampleProc (sampleRun (.str "error"))
      (.str "select 1") [sampleFullDataset]) }

/-- A success run without an output node (the `DbtRun.output` field is
declared optional). -/
def noOutputRun : DbtRun :=
  { started_at := .str "t0", completed_at := .str "t1", status := .str "success",
    inputs := [], output := none,
    job_name := "j", name_space := "dns", run_id := "uuid-0" }

/-! ## C7: skipped runs produce zero events -/

/-- C7: a run record with status "skipped" yields no per-run result from the
event builder, none from the error-isolation wrapper either, and it
contributes nothing to the aggregated start/complete/fail lists. -/
theorem C7_skipped_zero_events (p : Processor) (run : DbtRun)
    (h : run.status = JValue.str "skipped") :
    underToOpenlineageEvents p run = .ok none ∧
    to_openlineage_events p run = .ok none ∧
    ∀ rest, collect_events p (run :: rest) = collect_events p rest := by
  have h1 : underToOpenlineageEvents p run = .ok none := by
    rw [underToOpenlineageEvents, h]
    rfl
  have h2 : to_openlineage_events p run = .ok none := by
    rw [to_openlineage_events, h1]
  refine ⟨h1, h2, fun rest => ?_⟩
  rw [collect_events]
  cases hrest : collect_events p rest with
  | error e => simp only [h2, ok_bind, hrest, error_bind, pure_eq_ok]
  | ok ev => simp only [h2, ok_bind, hrest, pure_eq_ok]

/-- Witness for C7 at a concrete skipped run. -/
theorem C7_skipped_zero_events_witness :
    (sampleRun (.str "skipped")).status = JValue.str "skipped" ∧
    underToOpenlineageEvents sampleProc (sampleRun (.str "skipped")) = .ok none ∧
    to_openlineage_events sampleProc (sampleRun (.str "skipped")) = .ok none ∧
    ∀ rest, collect_events sampleProc (sampleRun (.str "skipped") :: rest) =
      collect_events sampleProc rest :=
  ⟨rfl, C7_skipped_zero_events sampleProc (sampleRun (.str "skipped")) rfl⟩

/-! ## C8: namespace resolution -/

/-- C8: dataset-namespace resolution is a pure function of the profile —
snowflake profiles yield `snowflake://{account}`, bigquery profiles yield the
literal `bigquery`, any other adapter type is an unsupported-adapter error —
and the job namespace is the environment override when present, else the same
resolution. -/
theorem C8_namespace_resolution :
    (∀ profile a, jGet profile "type" = .ok (.str "snowflake") →
      jGet profile "account" = .ok a →
      extract_namespace profile = .ok s!"snowflake://{pyStr a}") ∧
    (∀ profile, jGet profile "type" = .ok (.str "bigquery") →
      extract_namespace profile = .ok "bigquery") ∧
    (∀ profile t, jGet profile "type" = .ok t →
      jEqStr t "snowflake" = false → jEqStr t "bigquery" = false →
      extract_namespace profile =
        .error s!"NotImplementedError: only snowflake and bigquery adapters are supported, passed {pyStr t}") ∧
    (∀ env_ns profile ns, extract_namespace profile = .ok ns →
      extract_job_namespace env_ns profile = .ok (env_ns.getD ns)) := by
  refine ⟨?_, ?_, ?_, ?_⟩
  · intro profile a ht ha
    rw [extract_namespace]
    simp only [ht, ok_bind]
    rw [if_pos (by decide)]
    simp only [ha, ok_bind, pure_eq_ok]
  · intro profile ht
    rw [extract_namespace]
    simp only [ht, ok_bind]
    rw [if_neg (by decide), if_pos (by decide)]
    rfl
  · intro profile t ht hs hb
    rw [extract_namespace]
    simp only [ht, ok_bind]
    rw [if_neg (by simp [hs]), if_neg (by simp [hb])]
  · intro env_ns profile ns hns
    rw [extract_job_namespace]
    simp only [hns, ok_bind, pure_eq_ok]

/-- Witness for C8: a snowflake profile, a bigquery profile, a mysql profile,
and the override/no-override job-namespace cases. -/
theorem C8_namespace_resolution_witness :
    extract_namespace (.obj [("type", .str "snowflake"), ("account", .str "acc")]) =
      .ok "snowflake://acc" ∧
    extract_namespace (.obj [("type", .str "bigquery")]) = .ok "bigquery" ∧
    extract_namespace (.obj [("type", .str "mysql")]) =
      .error "NotImplementedError: only snowflake and bigquery adapters are supported, passed mysql" ∧
    extract_job_namespace (some "override") (.obj [("type", .str "bigquery")]) =
      .ok ((some "override").getD "bigquery") ∧
    extract_job_namespace none (.obj [("type", .str "bigquery")]) =
      .ok ((none : Option String).getD "bigquery") :=
  ⟨C8_namespace_resolution.1 _ (.str "acc") rfl rfl,
   C8_namespace_resolution.2.1 _ rfl,
   C8_namespace_resolution.2.2.1 _ (.str "mysql") rfl rfl rfl,
   C8_namespace_resolution.2.2.2 (some "override") _ _
     (C8_namespace_resolution.2.1 _ rfl),
   C8_namespace_resolution.2.2.2 none _ _
     (C8_namespace_resolution.2.1 _ rfl)⟩

/-- C5 counterexample: a success run whose output node is `None` does not
produce a start and a complete event with an empty output list, as the claim
would require; translation raises instead (the complete-event branch
dereferences `run.output` unconditionally). -/
theorem C5_success_counterexample :
    underToOpenlineageEvents sampleProc noOutputRun =
      .error "AttributeError: NoneType object has no attribute metadata_node" :=
  rfl

/-- Witness for C5 (amended) at a concrete success run with an output node. -/
theorem C5_success_events_witness :
    underToOpenlineageEvents sampleProc (sampleRun (.str "success")) =
      .ok (some sampleSuccessRes) ∧
    (sampleRun (.str "success")).status = JValue.str "success" ∧
    (∃ res ce out, some sampleSuccessRes = some res ∧ res.complete = some ce ∧
      res.fail = none ∧
      res.start.run.runId = (sampleRun (.str "success")).run_id ∧
      ce.run.runId = (sampleRun (.str "success")).run_id ∧
      (sampleRun (.str "success")).output = some out ∧
      res.start.outputs.length = 1 ∧ ce.outputs.length = 1) :=
  ⟨rfl, rfl, C5_success_events sampleProc (sampleRun (.str "success"))
    (some sampleSuccessRes) rfl rfl⟩

/-- Witness for C6 at a concrete error run. -/
theorem C6_error_events_witness :
    underToOpenlineageEvents sampleProc (sampleRun (.str "error")) =
      .ok (some sampleErrorRes) ∧
    (sampleRun (.str "error")).status = JValue.str "error" ∧
    (∃ res fe q, some sampleErrorRes = some res ∧ res.complete = none ∧
      res.fail = some fe ∧
      res.start.run.runId = (sampleRun (.str "error")).run_id ∧
      fe.run.runId = (sampleRun (.str "error")).run_id ∧
      fe.outputs = [] ∧ fe.job.facets = [("sql", Facet.sql q)] ∧
      (∀ d ∈ fe.inputs, ∃ flds, d.facets =
        [("dataSource",
          Facet.dataSource sampleProc.dataset_namespace sampleProc.dataset_namespace),
         ("schema", Facet.schema flds)])) :=
  ⟨rfl, rfl, C6_error_events sampleProc (sampleRun (.str "error"))
    (some sampleErrorRes) rfl rfl⟩

/-- Witness for C4 at the concrete success run. -/
theorem C4_facet_richness_witness :
    underToOpenlineageEvents sampleProc (sampleRun (.str "success")) =
      .ok (some sampleSuccessRes) ∧
    ((sampleSuccessRes.start.job.facets = [] ∧
      (∀ d ∈ sampleSuccessRes.start.inputs, d.facets = []) ∧
      (∀ o ∈ sampleSuccessRes.start.outputs, o.facets = [] ∧ o.outputFacets = [])) ∧
     (∀ ce, sampleSuccessRes.complete = some ce →
       (∃ q, ce.job.facets = [("sql", Facet.sql q)]) ∧
       (∀ d ∈ ce.inputs, ∃ flds, d.facets =
         [("dataSource",
           Facet.dataSource sampleProc.dataset_namespace sampleProc.dataset_namespace),
          ("schema", Facet.schema flds)])) ∧
     (∀ fe, sampleSuccessRes.fail = some fe →
       (∃ q, fe.job.facets = [("sql", Facet.sql q)]) ∧
       (∀ d ∈ fe.inputs, ∃ flds, d.facets =
         [("dataSource",
           Facet.dataSource sampleProc.dataset_namespace sampleProc.dataset_namespace),
          ("schema", Facet.schema flds)]))) :=
  ⟨rfl, C4_facet_richness sampleProc (sampleRun (.str "success")) sampleSuccessRes rfl⟩

/-- A processor with the skip-errors flag on. -/
def skipProc : Processor :=
  { producer := "prod", job_namespace := "jns", dataset_namespace := "dns",
    skip_errors := true }

/-- Witness for C9 at a concrete run with status "unknown", under both flag
settings. -/
theorem C9_unrecognized_status_witness :
    jEqStr (sampleRun (.str "unknown")).status "skipped" = false ∧
    jEqStr (sampleRun (.str "unknown")).status "success" = false ∧
    jEqStr (sampleRun (.str "unknown")).status "error" = false ∧
    inputDatasets sampleProc false (sampleRun (.str "unknown")).inputs =
      .ok [sampleBareDataset] ∧
    startOutputsOf sampleProc (sampleRun (.str "unknown")).output =
      .ok [sampleBareOutput] ∧
    inputDatasets skipProc false (sampleRun (.str "unknown")).inputs =
      .ok [sampleBareDataset] ∧
    startOutputsOf skipProc (sampleRun (.str "unknown")).output =
      .ok [sampleBareOutput] ∧
    (underToOpenlineageEvents sampleProc (sampleRun (.str "unknown")) =
      .error (statusError (sampleRun (.str "unknown")).status) ∧
     (sampleProc.skip_errors = false →
       to_openlineage_events sampleProc (sampleRun (.str "unknown")) =
         .error (valueErrorWrap (statusError (sampleRun (.str "unknown")).status)) ∧
       ∀ rest, collect_events sampleProc (sampleRun (.str "unknown") :: rest) =
         .error (valueErrorWrap (statusError (sampleRun (.str "unknown")).status))) ∧
     (sampleProc.skip_errors = true →
       to_openlineage_events sampleProc (sampleRun (.str "unknown")) = .ok none ∧
       ∀ rest, collect_events sampleProc (sampleRun (.str "unknown") :: rest) =
         collect_events sampleProc rest)) ∧
    (underToOpenlineageEvents skipProc (sampleRun (.str "unknown")) =
      .error (statusError (sampleRun (.str "unknown")).status) ∧
     (skipProc.skip_errors = false →
       to_openlineage_events skipProc (sampleRun (.str "unknown")) =
         .error (valueErrorWrap (statusError (sampleRun (.str "unknown")).status)) ∧
       ∀ rest, collect_events skipProc (sampleRun (.str "unknown") :: rest) =
         .error (valueErrorWrap (statusError (sampleRun (.str "unknown")).status))) ∧
     (skipProc.skip_errors = true →
       to_openlineage_events skipProc (sampleRun (.str "unknown")) = .ok none ∧
       ∀ rest, collect_events skipProc (sampleRun (.str "unknown") :: rest) =
         collect_events skipProc rest)) :=
  ⟨rfl, rfl, rfl, rfl, rfl, rfl, rfl,
   C9_unrecognized_status sampleProc (sampleRun (.str "unknown"))
     [sampleBareDataset] [sampleBareOutput] rfl rfl rfl rfl rfl,
   C9_unrecognized_status skipProc (sampleRun (.str "unknown"))
     [sampleBareDataset] [sampleBareOutput] rfl rfl rfl rfl rfl⟩

/-- A one-model definition graph, its node table, and one success execution
record, for exercising run assembly end to end. -/
def sampleManifest : JValue :=
  .obj [("nodes", .obj [("model.proj.customers", sampleMeta)]),
        ("parent_map", .obj [("model.proj.customers", .arr [])]),
        ("sources", .obj [])]

def sampleNodesDict : JValue :=
  .obj [("model.proj.customers", sampleMeta)]

def sampleRunRecord : JValue :=
  .obj [("timing", .arr [.obj [("name", .str "execute"),
                               ("started_at", .str "t0"),
                               ("completed_at", .str "t1")]]),
        ("unique_id", .str "model.proj.customers"),
        ("status", .str "success")]

/-- The run record assembled from `sampleRunRecord`. -/
def assembledSampleRun : DbtRun :=
  { started_at := .str "t0", completed_at := .str "t1", status := .str "success",
    inputs := [],
    output := some { metadata_node := sampleMeta, catalog_node := none },
    job_name := "db.public.proj.customers", name_space := "dns",
    run_id := freshRunId 0 }

/-- Witness for C10 at a concrete one-record results document. -/
theorem C10_output_always_present_witness :
    parse_run_assemble sampleProc sampleManifest none sampleNodesDict "now"
      [sampleRunRecord] 0 = .ok ([assembledSampleRun], 1) ∧
    ∀ r ∈ [assembledSampleRun], r.output ≠ none ∧
      ∀ res, underToOpenlineageEvents sampleProc r = .ok (some res) →
        res.start.outputs.length = 1 :=
  ⟨rfl, C10_output_always_present sampleProc sampleManifest none sampleNodesDict
    "now" [sampleRunRecord] 0 [assembledSampleRun] 1 rfl⟩

/-! ## C1: output-statistics facet attachment -/

theorem optTruthy_some (v : JValue) : optTruthy (some v) = truthy v := rfl

/-- A catalog entry that provides a row count but no byte count under either
vendor layout. -/
def statCatalog : JValue :=
  .obj [("columns", .obj []),
        ("stats", .obj [("num_rows", .obj [("value", .str "5")])])]

def statNode : ModelNode :=
  { metadata_node := sampleMeta, catalog_node := some statCatalog }

/-- The output dataset produced from `statNode` with full facets: the
outputStatistics facet is attached with a null size. -/
def statOutput : OutputDataset :=
  { name_space := "dns", name := "db.public.customers",
    facets := [("dataSource", Facet.dataSource "dns" "dns"),
               ("schema", Facet.schema [])],
    outputFacets := [("outputStatistics", Facet.outputStatistics 5 none)] }

/-- C1 counterexample: with a catalog entry whose byte count is absent but
whose row count resolves, the outputStatistics facet IS attached (with a null
size), contradicting the claim that it is attached only when both counts
resolve to non-null integers. -/
theorem C1_counterexample :
    output_bytes statCatalog = none ∧
    node_to_output_dataset sampleProc statNode true = .ok statOutput ∧
    statOutput.outputFacets ≠ [] :=
  ⟨rfl, rfl, by simp [statOutput]⟩

/-- C1 (amended): on a full-facet output conversion with a catalog entry, the
outputStatistics facet is attached exactly when the row count resolves to a
truthy value (and the entry itself is truthy); the row count is coerced to an
integer, and the byte count is independently coerced when truthy but its
absence does not suppress the facet — the facet's size field is then the raw
(absent) byte value. -/
theorem C1_output_statistics (p : Processor) (node : ModelNode) (cat : JValue)
    (od : OutputDataset) (hcat : node.catalog_node = some cat)
    (hok : node_to_output_dataset p node true = .ok od) :
    (truthy cat = false → od.outputFacets = []) ∧
    (truthy cat = true → optTruthy (output_rows cat) = false →
      od.outputFacets = []) ∧
    (truthy cat = true → optTruthy (output_rows cat) = true →
      ∃ r, pyInt ((output_rows cat).getD JValue.null) = .ok r ∧
        ((optTruthy (output_bytes cat) = true →
          ∃ b, pyInt ((output_bytes cat).getD JValue.null) = .ok b ∧
            od.outputFacets =
              [("outputStatistics",
                Facet.outputStatistics r (some (JValue.num b)))]) ∧
         (optTruthy (output_bytes cat) = false →
          od.outputFacets =
            [("outputStatistics",
              Facet.outputStatistics r (output_bytes cat))]))) := by
  rw [node_to_output_dataset] at hok
  cases ht : extract_dataset_data p node true with
  | error e => rw [ht, error_bind] at hok; exact Except.noConfusion hok
  | ok t =>
    obtain ⟨nm, ns, fc⟩ := t
    simp only [ht, ok_bind, hcat, Bool.true_and, optTruthy_some] at hok
    cases htr : truthy cat with
    | false =>
      rw [if_neg (show ¬(truthy cat = true) by rw [htr]; exact Bool.false_ne_true)] at hok
      simp only [ok_bind, pure_eq_ok] at hok
      cases hok
      exact ⟨fun _ => rfl, fun hc => Bool.noConfusion hc, fun hc => Bool.noConfusion hc⟩
    | true =>
      rw [if_pos (show truthy cat = true by rw [htr])] at hok
      cases hby : optTruthy (output_bytes cat) with
      | true =>
        rw [if_pos (show optTruthy (output_bytes cat) = true by rw [hby])] at hok
        cases hb : pyInt ((output_bytes cat).getD JValue.null) with
        | error e => rw [hb, error_bind] at hok; exact Except.noConfusion hok
        | ok b =>
          simp only [hb, ok_bind, pure_eq_ok] at hok
          cases hrw : optTruthy (output_rows cat) with
          | false =>
            rw [if_neg (show ¬(optTruthy (output_rows cat) = true) by
              rw [hrw]; exact Bool.false_ne_true)] at hok
            cases hok
            exact ⟨fun hc => Bool.noConfusion hc, fun _ _ => rfl,
              fun _ hc => Bool.noConfusion hc⟩
          | true =>
            rw [if_pos (show optTruthy (output_rows cat) = true by rw [hrw])] at hok
            cases hr : pyInt ((output_rows cat).getD JValue.null) with
            | error e => rw [hr, error_bind] at hok; exact Except.noConfusion hok
            | ok r =>
              simp only [hr, ok_bind] at hok
              cases hok
              exact ⟨fun hc => Bool.noConfusion hc, fun _ hc => Bool.noConfusion hc,
                fun _ _ => ⟨r, rfl, fun _ => ⟨b, rfl, rfl⟩,
                  fun hc => Bool.noConfusion hc⟩⟩
      | false =>
        rw [if_neg (show ¬(optTruthy (output_bytes cat) = true) by
          rw [hby]; exact Bool.false_ne_true)] at hok
        simp only [ok_bind, pure_eq_ok] at hok
        cases hrw : optTruthy (output_rows cat) with
        | false =>
          rw [if_neg (show ¬(optTruthy (output_rows cat) = true) by
            rw [hrw]; exact Bool.false_ne_true)] at hok
          cases hok
          exact ⟨fun hc => Bool.noConfusion hc, fun _ _ => rfl,
            fun _ hc => Bool.noConfusion hc⟩
        | true =>
          rw [if_pos (show optTruthy (output_rows cat) = true by rw [hrw])] at hok
          cases hr : pyInt ((output_rows cat).getD JValue.null) with
          | error e => rw [hr, error_bind] at hok; exact Except.noConfusion hok
          | ok r =>
            simp only [hr, ok_bind] at hok
            cases hok
            exact ⟨fun hc => Bool.noConfusion hc, fun _ hc => Bool.noConfusion hc,
              fun _ _ => ⟨r, rfl, fun hc => Bool.noConfusion hc, fun _ => rfl⟩⟩

/-- Witness for C1 (amended) at the concrete row-count-only catalog entry. -/
theorem C1_output_statistics_witness :
    statNode.catalog_node = some statCatalog ∧
    node_to_output_dataset sampleProc statNode true = .ok statOutput ∧
    ((truthy statCatalog = false → statOutput.outputFacets = []) ∧
     (truthy statCatalog = true → optTruthy (output_rows statCatalog) = false →
       statOutput.outputFacets = []) ∧
     (truthy statCatalog = true → optTruthy (output_rows statCatalog) = true →
       ∃ r, pyInt ((output_rows statCatalog).getD JValue.null) = .ok r ∧
         ((optTruthy (output_bytes statCatalog) = true →
           ∃ b, pyInt ((output_bytes statCatalog).getD JValue.null) = .ok b ∧
             statOutput.outputFacets =
               [("outputStatistics",
                 Facet.outputStatistics r (some (JValue.num b)))]) ∧
          (optTruthy (output_bytes statCatalog) = false →
           statOutput.outputFacets =
             [("outputStatistics",
               Facet.outputStatistics r (output_bytes statCatalog))])))) :=
  ⟨rfl, rfl, C1_output_statistics sampleProc statNode statCatalog statOutput rfl rfl⟩

/-! ## C2: validated-parent selection in test aggregation -/

/-- The parent-id classification used by the test path: a transformation-node
id or an external-source id. -/
def testMatchPred (s : String) : Bool :=
  pyStartsWith s "model." || pyStartsWith s "source."

theorem getLast?_cons_match {α : Type} (a : α) (l : List α) :
    (a :: l).getLast? =
      (match l.getLast? with | some m => some m | none => some a) := by
  induction l generalizing a with
  | nil => rfl
  | cons b bs ih =>
    rw [List.getLast?_cons_cons, ih b]
    cases hbs : bs.getLast? <;> rfl

/-- The selection loop keeps reassigning on every matching parent, so it
returns the LAST matching parent (or the accumulator when none match). -/
theorem test_model_node_loop_spec (l : List String) :
    ∀ acc, test_model_node_loop acc (l.map JValue.str) =
      .ok (match (l.filter testMatchPred).getLast? with
           | some m => some m
           | none => acc) := by
  induction l with
  | nil => intro acc; rfl
  | cons x xs ih =>
    intro acc
    rw [List.map_cons, test_model_node_loop]
    simp only [jStartsWith, jStr, ok_bind, pure_eq_ok]
    cases hm : pyStartsWith x "model." with
    | true =>
      rw [if_pos rfl]
      rw [ih (some x)]
      have hfx : testMatchPred x = true := by
        rw [testMatchPred, hm, Bool.true_or]
      rw [List.filter_cons_of_pos hfx, getLast?_cons_match]
      cases hxs : (xs.filter testMatchPred).getLast? <;> rfl
    | false =>
      rw [if_neg Bool.false_ne_true]
      cases hs : pyStartsWith x "source." with
      | true =>
        rw [if_pos rfl]
        rw [ih (some x)]
        have hfx : testMatchPred x = true := by
          rw [testMatchPred, hm, hs]
          rfl
        rw [List.filter_cons_of_pos hfx, getLast?_cons_match]
        cases hxs : (xs.filter testMatchPred).getLast? <;> rfl
      | false =>
        rw [if_neg Bool.false_ne_true]
        rw [ih acc]
        have hfx : testMatchPred x = false := by
          rw [testMatchPred, hm, hs]
          rfl
        rw [List.filter_cons_of_neg (by rw [hfx]; exact Bool.false_ne_true)]

/-- C2 (amended): (a) the validated parent of a test record is the LAST
parent id matching the model/source prefix classification among its parents
(the loop has no break, so later matches overwrite earlier ones); (b) when no
parent matches, assertion collection — and hence the whole test parse —
aborts with the orphan-test error before any events are produced. -/
theorem C2_validated_parent :
    (∀ parents : List String,
      test_model_node (parents.map JValue.str) =
        .ok ((parents.filter testMatchPred).getLast?)) ∧
    (∀ nodes manifest run uid tn pm pv parents tm nmv st,
      jGet run "unique_id" = .ok (.str uid) →
      jStr (.str uid) = .ok uid →
      jGet nodes uid = .ok tn →
      jGet manifest "parent_map" = .ok pm →
      jGet pm uid = .ok pv →
      jList pv = .ok parents →
      test_model_node parents = .ok none →
      jGet tn "test_metadata" = .ok tm →
      jGet tm "name" = .ok nmv →
      jGet run "status" = .ok st →
      ∀ rest,
        collect_assertions nodes manifest (run :: rest) =
          .error ("ValueError: Model node connected to test " ++ uid ++ " not found") ∧
        ∀ p rr cat sa ca c, jGet rr "results" = .ok (.arr (run :: rest)) →
          parse_test p manifest rr cat nodes sa ca c =
            .error ("ValueError: Model node connected to test " ++ uid ++ " not found")) := by
  constructor
  · intro parents
    rw [test_model_node, test_model_node_loop_spec]
    cases hl : (parents.filter testMatchPred).getLast? <;> rfl
  · intro nodes manifest run uid tn pm pv parents tm nmv st
    intro h1 h2 h3 h4 h5 h6 h7 h8 h9 h10 rest
    have hcol : collect_assertions nodes manifest (run :: rest) =
        .error ("ValueError: Model node connected to test " ++ uid ++ " not found") := by
      rw [collect_assertions]
      simp only [h1, ok_bind, h2, h3, h4, h5, h6, h7, h8, h9, h10, pure_eq_ok]
    refine ⟨hcol, ?_⟩
    intro p rr cat sa ca c hrr
    rw [parse_test]
    simp only [hrr, ok_bind, jList, hcol, error_bind]

/-- Two model nodes and a test node whose parents are both models: the test's
dependency list names `model.proj.a` first and `model.proj.b` second. -/
def nodeA : JValue :=
  .obj [("database", .str "db"), ("schema", .str "public"), ("name", .str "a"),
        ("columns", .obj []), ("unique_id", .str "model.proj.a")]

def nodeB : JValue :=
  .obj [("database", .str "db"), ("schema", .str "public"), ("name", .str "b"),
        ("columns", .obj []), ("unique_id", .str "model.proj.b")]

def testNodeT : JValue :=
  .obj [("test_metadata",
         .obj [("name", .str "not_null"),
               ("kwargs", .obj [("column_name", .str "id")])])]

def testManifest : JValue :=
  .obj [("nodes", .obj [("model.proj.a", nodeA), ("model.proj.b", nodeB)]),
        ("parent_map",
         .obj [("test.proj.t", .arr [.str "model.proj.a", .str "model.proj.b"])]),
        ("sources", .obj [])]

def testNodesDict : JValue :=
  .obj [("model.proj.a", nodeA), ("model.proj.b", nodeB),
        ("test.proj.t", testNodeT)]

def testRunResults : JValue :=
  .obj [("results",
         .arr [.obj [("unique_id", .str "test.proj.t"), ("status", .str "pass")]])]

/-- C2 counterexample: the test record's parents are `[model.proj.a,
model.proj.b]`, both matching the model prefix.  The claim's "first matching
parent" would validate `model.proj.a` (dataset `db.public.a`); the code
validates the LAST matching parent, so the single emitted start/complete pair
references dataset `db.public.b`. -/
theorem C2_counterexample :
    (parse_test sampleProc testManifest testRunResults none testNodesDict
        "t0" "t1" 0).map
      (fun x => (x.1.starts.length,
                 x.1.completes.map (fun e => e.inputs.map Dataset.name))) =
      .ok (1, [["db.public.b"]]) :=
  rfl

/-- Witness for C2 (amended): part (a) at the two-model parent list, part (b)
at an orphan test whose single parent has an unclassified prefix. -/
theorem C2_validated_parent_witness :
    test_model_node ([ "model.proj.a", "model.proj.b" ].map JValue.str) =
      .ok (([ "model.proj.a", "model.proj.b" ].filter testMatchPred).getLast?) ∧
    (collect_assertions (.obj [("test.proj.o", testNodeT)])
        (.obj [("nodes", .obj []),
               ("parent_map", .obj [("test.proj.o", .arr [.str "seed.x"])]),
               ("sources", .obj [])])
        [.obj [("unique_id", .str "test.proj.o"), ("status", .str "fail")]] =
      .error ("ValueError: Model node connected to test " ++ "test.proj.o" ++ " not found") ∧
     ∀ p rr cat sa ca c,
       jGet rr "results" =
         .ok (.arr [.obj [("unique_id", .str "test.proj.o"), ("status", .str "fail")]]) →
       parse_test p
         (.obj [("nodes", .obj []),
                ("parent_map", .obj [("test.proj.o", .arr [.str "seed.x"])]),
                ("sources", .obj [])])
         rr cat (.obj [("test.proj.o", testNodeT)]) sa ca c =
         .error ("ValueError: Model node connected to test " ++ "test.proj.o" ++ " not found")) :=
  ⟨C2_validated_parent.1 [ "model.proj.a", "model.proj.b" ],
   C2_validated_parent.2 (.obj [("test.proj.o", testNodeT)])
     (.obj [("nodes", .obj []),
            ("parent_map", .obj [("test.proj.o", .arr [.str "seed.x"])]),
            ("sources", .obj [])])
     (.obj [("unique_id", .str "test.proj.o"), ("status", .str "fail")])
     "test.proj.o" testNodeT
     (.obj [("test.proj.o", .arr [.str "seed.x"])]) (.arr [.str "seed.x"])
     [.str "seed.x"]
     (.obj [("name", .str "not_null"), ("kwargs", .obj [("column_name", .str "id")])])
     (.str "not_null") (.str "fail")
     rfl rfl rfl rfl rfl rfl rfl rfl rfl rfl []⟩

/-! ## C3: one start/complete pair per validated dataset group -/

/-- The emission condition of the second `parse_test` loop: a model/source id
prefix and at least one grouped assertion. -/
def qualPred (A : List (Option String × Assertion)) (x : String × JValue) : Bool :=
  (pyStartsWith x.1 "model." || pyStartsWith x.1 "source.") &&
  !((assertionsFor A (some x.1)).length == 0)

/-- Full characterization of the emission loop: one start/complete pair per
qualifying node, in order, with one fresh run id per pair (the `i`-th pair
uses the `c+i`-th id of the supply), facet-free start inputs, and the complete
event's input carrying the dataQualityAssertions facet with the whole grouped
assertion list. -/
theorem emit_tests_spec (p : Processor) (A : List (Option String × Assertion))
    (sa ca : String) :
    ∀ (nl : List (String × JValue)) (c : Nat) (starts completes : List RunEvent)
      (c' : Nat),
      emit_tests p A sa ca nl c = .ok (starts, completes, c') →
      starts.length = (nl.filter (qualPred A)).length ∧
      completes.length = starts.length ∧
      c' = c + starts.length ∧
      (∀ (i : Nat) (name : String) (node : JValue),
        (nl.filter (qualPred A))[i]? = some (name, node) →
        ∃ ns dsname fc jn,
          extract_dataset_data p { metadata_node := node, catalog_node := none }
            false = .ok (ns, dsname, fc) ∧
          starts[i]? = some
            { eventType := RunState.START,
              eventTime := JValue.str sa,
              run := { runId := freshRunId (c + i) },
              job := { name_space := p.job_namespace, name := jn, facets := [] },
              producer := p.producer,
              inputs := [{ name_space := ns, name := dsname, facets := [] }],
              outputs := [] } ∧
          completes[i]? = some
            { eventType := RunState.COMPLETE,
              eventTime := JValue.str ca,
              run := { runId := freshRunId (c + i) },
              job := { name_space := p.job_namespace, name := jn, facets := [] },
              producer := p.producer,
              inputs := [{ name_space := ns, name := dsname,
                           facets := [("dataQualityAssertions",
                             Facet.dataQualityAssertions
                               (assertionsFor A (some name)))] }],
              outputs := [] }) := by
  intro nl
  induction nl with
  | nil =>
    intro c starts completes c' h
    cases h
    refine ⟨rfl, rfl, rfl, ?_⟩
    intro i name node hi
    cases hi
  | cons x rest ih =>
    intro c starts completes c' h
    obtain ⟨name, node⟩ := x
    rw [emit_tests] at h
    cases hpre : pyStartsWith name "model." || pyStartsWith name "source." with
    | false =>
      rw [if_pos (show (!(pyStartsWith name "model." || pyStartsWith name "source.")) = true
        by rw [hpre]; decide)] at h
      have hq : qualPred A (name, node) = false := by
        simp only [qualPred, hpre, Bool.false_and]
      obtain ⟨h1, h2, h3, h4⟩ := ih c starts completes c' h
      rw [List.filter_cons_of_neg (by rw [hq]; exact Bool.false_ne_true)]
      exact ⟨h1, h2, h3, h4⟩
    | true =>
      rw [if_neg (show ¬((!(pyStartsWith name "model." || pyStartsWith name "source.")) = true)
        by rw [hpre]; decide)] at h
      cases hlen : (assertionsFor A (some name)).length == 0 with
      | true =>
        rw [if_pos hlen] at h
        have hq : qualPred A (name, node) = false := by
          simp only [qualPred, hpre, hlen, Bool.not_true, Bool.and_false]
        obtain ⟨h1, h2, h3, h4⟩ := ih c starts completes c' h
        rw [List.filter_cons_of_neg (by rw [hq]; exact Bool.false_ne_true)]
        exact ⟨h1, h2, h3, h4⟩
      | false =>
        rw [if_neg (show ¬(((assertionsFor A (some name)).length == 0) = true)
          by rw [hlen]; decide)] at h
        have hq : qualPred A (name, node) = true := by
          simp only [qualPred, hpre, hlen, Bool.not_false, Bool.and_true,
            Bool.true_and]
        cases ht : extract_dataset_data p
            { metadata_node := node, catalog_node := none } false with
        | error e => rw [ht, error_bind] at h; exact Except.noConfusion h
        | ok t =>
          obtain ⟨ns, dn, fc⟩ := t
          simp only [ht, ok_bind] at h
          cases hdb : jGet node "database" with
          | error e => rw [hdb, error_bind] at h; exact Except.noConfusion h
          | ok db =>
            simp only [hdb, ok_bind] at h
            cases hsch : jGet node "schema" with
            | error e => rw [hsch, error_bind] at h; exact Except.noConfusion h
            | ok sch =>
              simp only [hsch, ok_bind] at h
              cases huv : jGet node "unique_id" with
              | error e => rw [huv, error_bind] at h; exact Except.noConfusion h
              | ok uv =>
                simp only [huv, ok_bind] at h
                cases huid : jStr uv with
                | error e => rw [huid, error_bind] at h; exact Except.noConfusion h
                | ok uid =>
                  simp only [huid, ok_bind] at h
                  cases hrec : emit_tests p A sa ca rest (c + 1) with
                  | error e => rw [hrec, error_bind] at h; exact Except.noConfusion h
                  | ok trip =>
                    obtain ⟨starts', completes', c2⟩ := trip
                    simp only [hrec, ok_bind, pure_eq_ok] at h
                    cases h
                    obtain ⟨h1, h2, h3, h4⟩ := ih (c + 1) starts' completes' c' hrec
                    rw [List.filter_cons_of_pos hq]
                    refine ⟨by simp [h1], by simp [h2], by simp [h3]; omega, ?_⟩
                    intro i nm nd hi
                    cases i with
                    | zero =>
                      rw [List.getElem?_cons_zero] at hi
                      cases hi
                      exact ⟨ns, dn, fc,
                        toString "" ++ toString (pyStr db) ++ toString "." ++
                          toString (pyStr sch) ++ toString "." ++
                          toString (dropPref uid "test.") ++ toString "", ht,
                        by rw [List.getElem?_cons_zero, Nat.add_zero],
                        by rw [List.getElem?_cons_zero, Nat.add_zero]⟩
                    | succ j =>
                      rw [List.getElem?_cons_succ] at hi
                      obtain ⟨ns', dn', fc', jn', ha, hb, hc⟩ := h4 j nm nd hi
                      have hcj : c + 1 + j = c + (j + 1) := by omega
                      refine ⟨ns', dn', fc', jn', ha, ?_, ?_⟩
                      · rw [List.getElem?_cons_succ, ← hcj]
                        exact hb
                      · rw [List.getElem?_cons_succ, ← hcj]
                        exact hc

/-- Relate a successful `jStartsWith` to the underlying string test. -/
theorem jStartsWith_ok {v : JValue} {pre : String} {b : Bool}
    (h : jStartsWith v pre = .ok b) :
    ∀ {s : String}, jStr v = .ok s → pyStartsWith s pre = b := by
  intro s hs
  rw [jStartsWith, hs, ok_bind, pure_eq_ok] at h
  exact Except.ok.inj h

/-- A validated parent selected by the loop either came in through the
accumulator or matches the model/source classification. -/
theorem test_model_node_loop_mem {parents : List JValue} :
    ∀ {acc : Option String} {s : String},
      test_model_node_loop acc parents = .ok (some s) →
      acc = some s ∨ testMatchPred s = true := by
  induction parents with
  | nil =>
    intro acc s h
    cases h
    exact Or.inl rfl
  | cons node rest ih =>
    intro acc s h
    rw [test_model_node_loop] at h
    cases hm : jStartsWith node "model." with
    | error e => rw [hm, error_bind] at h; exact Except.noConfusion h
    | ok bm =>
      simp only [hm, ok_bind] at h
      cases bm with
      | true =>
        rw [if_pos rfl] at h
        cases hs2 : jStr node with
        | error e => rw [hs2, error_bind] at h; exact Except.noConfusion h
        | ok s2 =>
          simp only [hs2, ok_bind] at h
          rcases ih h with heq | hpred
          · cases heq
            have hpm := jStartsWith_ok hm hs2
            exact Or.inr (by rw [testMatchPred, hpm, Bool.true_or])
          · exact Or.inr hpred
      | false =>
        rw [if_neg Bool.false_ne_true] at h
        cases hsrc : jStartsWith node "source." with
        | error e => rw [hsrc, error_bind] at h; exact Except.noConfusion h
        | ok bs =>
          simp only [hsrc, ok_bind] at h
          cases bs with
          | true =>
            rw [if_pos rfl] at h
            cases hs2 : jStr node with
            | error e => rw [hs2, error_bind] at h; exact Except.noConfusion h
            | ok s2 =>
              simp only [hs2, ok_bind] at h
              rcases ih h with heq | hpred
              · cases heq
                have hps := jStartsWith_ok hsrc hs2
                exact Or.inr (by rw [testMatchPred, hps, Bool.or_true])
              · exact Or.inr hpred
          | false =>
            rw [if_neg Bool.false_ne_true] at h
            exact ih h

/-- Every key the first `parse_test` loop groups assertions under matches the
model/source classification. -/
theorem collect_assertions_keys {nodes manifest : JValue} :
    ∀ {results : List JValue} {A : List (Option String × Assertion)},
      collect_assertions nodes manifest results = .ok A →
      ∀ k a, (some k, a) ∈ A → testMatchPred k = true := by
  intro results
  induction results with
  | nil =>
    intro A h k a hmem
    cases h
    cases hmem
  | cons run rest ih =>
    intro A h k a hmem
    rw [collect_assertions] at h
    cases h1 : jGet run "unique_id" with
    | error e => rw [h1, error_bind] at h; exact Except.noConfusion h
    | ok uv =>
      simp only [h1, ok_bind] at h
      cases h2 : jStr uv with
      | error e => rw [h2, error_bind] at h; exact Except.noConfusion h
      | ok uid =>
        simp only [h2, ok_bind] at h
        cases h3 : jGet nodes uid with
        | error e => rw [h3, error_bind] at h; exact Except.noConfusion h
        | ok tn =>
          simp only [h3, ok_bind] at h
          cases h4 : jGet manifest "parent_map" with
          | error e => rw [h4, error_bind] at h; exact Except.noConfusion h
          | ok pm =>
            simp only [h4, ok_bind] at h
            cases h5 : jGet pm uid with
            | error e => rw [h5, error_bind] at h; exact Except.noConfusion h
            | ok pv =>
              simp only [h5, ok_bind] at h
              cases h6 : jList pv with
              | error e => rw [h6, error_bind] at h; exact Except.noConfusion h
              | ok parents =>
                simp only [h6, ok_bind] at h
                cases h7 : test_model_node parents with
                | error e => rw [h7, error_bind] at h; exact Except.noConfusion h
                | ok mn =>
                  simp only [h7, ok_bind] at h
                  cases h8 : jGet tn "test_metadata" with
                  | error e => rw [h8, error_bind] at h; exact Except.noConfusion h
                  | ok tm =>
                    simp only [h8, ok_bind] at h
                    cases h9 : jGet tm "name" with
                    | error e => rw [h9, error_bind] at h; exact Except.noConfusion h
                    | ok nmv =>
                      simp only [h9, ok_bind] at h
                      cases h10 : jGet run "status" with
                      | error e => rw [h10, error_bind] at h; exact Except.noConfusion h
                      | ok st =>
                        simp only [h10, ok_bind] at h
                        cases mn with
                        | none => exact Except.noConfusion h
                        | some k0 =>
                          cases h11 : collect_assertions nodes manifest rest with
                          | error e =>
                            simp only [h11, error_bind, ok_bind, pure_eq_ok] at h
                            exact Except.noConfusion h
                          | ok A' =>
                            simp only [h11, ok_bind, pure_eq_ok] at h
                            cases h
                            cases hmem with
                            | head =>
                              rw [test_model_node] at h7
                              rcases test_model_node_loop_mem h7 with heq | hpred
                              · exact Option.noConfusion heq
                              · exact hpred
                            | tail _ htl => exact ih h11 k a htl

/-- A nonempty assertion group has a member under its key. -/
theorem assertionsFor_mem {A : List (Option String × Assertion)}
    {k : Option String} (h : assertionsFor A k ≠ []) :
    ∃ a, (k, a) ∈ A := by
  rw [assertionsFor] at h
  cases hf : A.filter (fun x => x.1 == k) with
  | nil => rw [hf] at h; exact absurd rfl h
  | cons x xs =>
    have hx : x ∈ A.filter (fun x => x.1 == k) := by
      rw [hf]
      exact List.mem_cons_self _ _
    have hbeq : (x.1 == k) = true := (List.mem_filter.mp hx).2
    have hxk : x.1 = k := eq_of_beq hbeq
    refine ⟨x.2, ?_⟩
    have hxe : x = (k, x.2) := by
      rw [← hxk]
    rw [← hxe]
    exact (List.mem_filter.mp hx).1

/-- C3 (amended): in test aggregation, a distinct validated dataset with at
least one grouped assertion gets exactly one start/complete pair exactly when
its key occurs in the definition graph's node table (whose keys, as dict
keys, are distinct); a grouped key absent from the node table — notably an
external source, which lives in the sources table — gets zero pairs.  Each
emitted pair shares one fresh run id from the supply (`c+i` for the `i`-th
pair, so ids differ across groups), the start event carries no assertion
facet, and the complete event carries a dataQualityAssertions facet listing
the whole grouped assertion list (each entry holding the check name, boolean
success, and optional target column). -/
theorem C3_test_event_pairs (p : Processor) (manifest rr : JValue)
    (cat : Option JValue) (nodes : JValue) (sa ca : String) (c : Nat)
    (ev : DbtEvents) (c' : Nat) (results : List JValue)
    (A : List (Option String × Assertion)) (mns : List (String × JValue))
    (hres : jGet rr "results" = .ok (.arr results))
    (hA : collect_assertions nodes manifest results = .ok A)
    (hmns : jGet manifest "nodes" = .ok (.obj mns))
    (hnodup : (mns.map Prod.fst).Nodup)
    (hok : parse_test p manifest rr cat nodes sa ca c = .ok (ev, c')) :
    ev.fails = [] ∧
    ev.starts.length = (mns.filter (qualPred A)).length ∧
    ev.completes.length = ev.starts.length ∧
    (∀ k, assertionsFor A (some k) ≠ [] → k ∈ mns.map Prod.fst →
      ((mns.filter (qualPred A)).map Prod.fst).count k = 1) ∧
    (∀ k, k ∉ mns.map Prod.fst →
      ((mns.filter (qualPred A)).map Prod.fst).count k = 0) ∧
    (∀ (i : Nat) (name : String) (node : JValue),
      (mns.filter (qualPred A))[i]? = some (name, node) →
      ∃ ns dsname fc jn,
        extract_dataset_data p { metadata_node := node, catalog_node := none }
          false = .ok (ns, dsname, fc) ∧
        ev.starts[i]? = some
          { eventType := RunState.START,
            eventTime := JValue.str sa,
            run := { runId := freshRunId (c + i) },
            job := { name_space := p.job_namespace, name := jn, facets := [] },
            producer := p.producer,
            inputs := [{ name_space := ns, name := dsname, facets := [] }],
            outputs := [] } ∧
        ev.completes[i]? = some
          { eventType := RunState.COMPLETE,
            eventTime := JValue.str ca,
            run := { runId := freshRunId (c + i) },
            job := { name_space := p.job_namespace, name := jn, facets := [] },
            producer := p.producer,
            inputs := [{ name_space := ns, name := dsname,
                         facets := [("dataQualityAssertions",
                           Facet.dataQualityAssertions
                             (assertionsFor A (some name)))] }],
            outputs := [] }) := by
  rw [parse_test] at hok
  simp only [hres, ok_bind, jList] at hok
  simp only [hA, ok_bind, hmns, jObj] at hok
  cases hemit : emit_tests p A sa ca mns c with
  | error e => rw [hemit, error_bind] at hok; exact Except.noConfusion hok
  | ok trip =>
    obtain ⟨starts, completes, c₂⟩ := trip
    simp only [hemit, ok_bind, pure_eq_ok] at hok
    cases hok
    obtain ⟨h1, h2, h3, h4⟩ := emit_tests_spec p A sa ca mns c starts completes c' hemit
    refine ⟨rfl, h1, h2, ?_, ?_, h4⟩
    case refine_2 =>
      intro k hknot
      rw [List.count_eq_zero]
      intro hkin'
      apply hknot
      obtain ⟨x, hxf, hxk⟩ := List.mem_map.mp hkin'
      rw [← hxk]
      exact List.mem_map_of_mem Prod.fst (List.mem_of_mem_filter hxf)
    intro k hk hkin
    have hqnodup : ((mns.filter (qualPred A)).map Prod.fst).Nodup :=
      hnodup.sublist (List.Sublist.map Prod.fst (List.filter_sublist mns))
    obtain ⟨a, haA⟩ := assertionsFor_mem hk
    obtain ⟨x, hxmem, hxk⟩ := List.mem_map.mp hkin
    have hpred : qualPred A x = true := by
      have htm := collect_assertions_keys hA k a haA
      rw [testMatchPred] at htm
      rw [qualPred, hxk, htm, Bool.true_and]
      cases hl : assertionsFor A (some k) with
      | nil => exact absurd hl hk
      | cons y ys => rfl
    have hxfil : x ∈ mns.filter (qualPred A) := List.mem_filter.mpr ⟨hxmem, hpred⟩
    have hkfil : k ∈ (mns.filter (qualPred A)).map Prod.fst := by
      rw [← hxk]
      exact List.mem_map_of_mem Prod.fst hxfil
    exact Nat.le_antisymm (List.nodup_iff_count_le_one.mp hqnodup k)
      (List.count_pos_iff.mpr hkfil)

/-- Scenario data for C3: one model, two tests on it (one pass, one fail). -/
def nodeM : JValue :=
  .obj [("database", .str "db"), ("schema", .str "public"), ("name", .str "m"),
        ("columns", .obj []), ("unique_id", .str "model.proj.m")]

def testNode1 : JValue :=
  .obj [("test_metadata",
         .obj [("name", .str "not_null"),
               ("kwargs", .obj [("column_name", .str "id")])])]

def testNode2 : JValue :=
  .obj [("test_metadata", .obj [("name", .str "unique")])]

def scenarioMns : List (String × JValue) :=
  [("model.proj.m", nodeM)]

def scenarioManifest : JValue :=
  .obj [("nodes", .obj scenarioMns),
        ("parent_map",
         .obj [("test.proj.t1", .arr [.str "model.proj.m"]),
               ("test.proj.t2", .arr [.str "model.proj.m"])]),
        ("sources", .obj [])]

def scenarioNodes : JValue :=
  .obj [("model.proj.m", nodeM), ("test.proj.t1", testNode1),
        ("test.proj.t2", testNode2)]

def scenarioResults : List JValue :=
  [.obj [("unique_id", .str "test.proj.t1"), ("status", .str "pass")],
   .obj [("unique_id", .str "test.proj.t2"), ("status", .str "fail")]]

def scenarioRunResults : JValue :=
  .obj [("results", .arr scenarioResults)]

/-- The two grouped assertions of the scenario: one success, one failure. -/
def scenarioA : List (Option String × Assertion) :=
  [(some "model.proj.m",
    { assertion := .str "not_null", success := true, column := some (.str "id") }),
   (some "model.proj.m",
    { assertion := .str "unique", success := false, column := none })]

def scenarioStart : RunEvent :=
  { eventType := RunState.START, eventTime := .str "t0",
    run := { runId := freshRunId 0 },
    job := { name_space := "jns", name := "db.public.model.proj.m", facets := [] },
    producer := "prod",
    inputs := [{ name_space := "dns", name := "db.public.m", facets := [] }],
    outputs := [] }

def scenarioComplete : RunEvent :=
  { eventType := RunState.COMPLETE, eventTime := .str "t1",
    run := { runId := freshRunId 0 },
    job := { name_space := "jns", name := "db.public.model.proj.m", facets := [] },
    producer := "prod",
    inputs := [{ name_space := "dns", name := "db.public.m",
                 facets := [("dataQualityAssertions",
                   Facet.dataQualityAssertions
                     (assertionsFor scenarioA (some "model.proj.m")))] }],
    outputs := [] }

def scenarioEv : DbtEvents :=
  { starts := [scenarioStart], completes := [scenarioComplete], fails := [] }

/-- Witness for C3 at the pass/fail scenario: exactly one start/complete pair
for the shared parent model, whose complete event's assertion facet lists the
two checks, one with success=true and one with success=false. -/
theorem C3_test_event_pairs_witness :
    jGet scenarioRunResults "results" = .ok (.arr scenarioResults) ∧
    collect_assertions scenarioNodes scenarioManifest scenarioResults = .ok scenarioA ∧
    jGet scenarioManifest "nodes" = .ok (.obj scenarioMns) ∧
    (scenarioMns.map Prod.fst).Nodup ∧
    parse_test sampleProc scenarioManifest scenarioRunResults none scenarioNodes
      "t0" "t1" 0 = .ok (scenarioEv, 1) ∧
    assertionsFor scenarioA (some "model.proj.m") =
      [{ assertion := .str "not_null", success := true, column := some (.str "id") },
       { assertion := .str "unique", success := false, column := none }] ∧
    (scenarioEv.fails = [] ∧
     scenarioEv.starts.length = (scenarioMns.filter (qualPred scenarioA)).length ∧
     scenarioEv.completes.length = scenarioEv.starts.length ∧
     (∀ k, assertionsFor scenarioA (some k) ≠ [] →
       k ∈ scenarioMns.map Prod.fst →
       ((scenarioMns.filter (qualPred scenarioA)).map Prod.fst).count k = 1) ∧
     (∀ k, k ∉ scenarioMns.map Prod.fst →
       ((scenarioMns.filter (qualPred scenarioA)).map Prod.fst).count k = 0) ∧
     (∀ (i : Nat) (name : String) (node : JValue),
       (scenarioMns.filter (qualPred scenarioA))[i]? = some (name, node) →
       ∃ ns dsname fc jn,
         extract_dataset_data sampleProc
           { metadata_node := node, catalog_node := none } false =
           .ok (ns, dsname, fc) ∧
         scenarioEv.starts[i]? = some
           { eventType := RunState.START,
             eventTime := JValue.str "t0",
             run := { runId := freshRunId (0 + i) },
             job := { name_space := sampleProc.job_namespace, name := jn,
                      facets := [] },
             producer := sampleProc.producer,
             inputs := [{ name_space := ns, name := dsname, facets := [] }],
             outputs := [] } ∧
         scenarioEv.completes[i]? = some
           { eventType := RunState.COMPLETE,
             eventTime := JValue.str "t1",
             run := { runId := freshRunId (0 + i) },
             job := { name_space := sampleProc.job_namespace, name := jn,
                      facets := [] },
             producer := sampleProc.producer,
             inputs := [{ name_space := ns, name := dsname,
                          facets := [("dataQualityAssertions",
                            Facet.dataQualityAssertions
                              (assertionsFor scenarioA (some name)))] }],
             outputs := [] })) :=
  ⟨rfl, rfl, rfl, by decide, rfl, rfl,
   C3_test_event_pairs sampleProc scenarioManifest scenarioRunResults none
     scenarioNodes "t0" "t1" 0 scenarioEv 1 scenarioResults scenarioA scenarioMns
     rfl rfl rfl (by decide) rfl⟩

/-- A test whose validated parent is an external source: the parent id has
the `source.` prefix, so grouping succeeds, but `manifest['nodes']` (which the
emission loop iterates) holds only the model — source ids live in the
separate sources table. -/
def sourceTestManifest : JValue :=
  .obj [("nodes", .obj [("model.proj.m", nodeM)]),
        ("parent_map", .obj [("test.proj.ts", .arr [.str "source.proj.s"])]),
        ("sources", .obj [("source.proj.s", .obj [])])]

def sourceTestNodes : JValue :=
  .obj [("model.proj.m", nodeM), ("test.proj.ts", testNode1)]

def sourceTestResults : List JValue :=
  [.obj [("unique_id", .str "test.proj.ts"), ("status", .str "pass")]]

def sourceTestRunResults : JValue :=
  .obj [("results", .arr sourceTestResults)]

/-- C3 counterexample: the test's validated dataset `source.proj.s` gets one
grouped assertion, yet `parse_test` emits NO events at all (the emission loop
iterates the definition graph's node table, which never contains source ids),
refuting "exactly one start event and one complete event ... for every
distinct validated dataset that has at least one assertion grouped to it". -/
theorem C3_counterexample :
    collect_assertions sourceTestNodes sourceTestManifest sourceTestResults =
      .ok [(some "source.proj.s",
            { assertion := .str "not_null", success := true,
              column := some (.str "id") })] ∧
    assertionsFor
      [(some "source.proj.s",
        { assertion := .str "not_null", success := true,
          column := some (.str "id") })] (some "source.proj.s") ≠ [] ∧
    parse_test sampleProc sourceTestManifest sourceTestRunResults none
      sourceTestNodes "t0" "t1" 0 =
      .ok ({ starts := [], completes := [], fails := [] }, 0) :=
  ⟨rfl, by intro h; exact List.noConfusion h, rfl⟩

end Dbt
